import Mathlib

/-!
Verification of the SocketQuiz session/game coordinator.

The definitions below are a shallow embedding of the server in
src/server/index.js: the session registry (a JS Map, modelled as a list in
insertion order), the socket event handlers (join, ready, submitAnswer,
startGame, and the delayed disconnect removal), and the timer callbacks
(lobby countdown timeout, question deadline, reveal pause, results-grace
cleanup).  Pending setTimeout/setInterval handles are modelled as a list of
(session id, timer kind) entries carried in the server state: setting a
timer appends an entry, clearTimeout/clearInterval removes it, and a timer
callback can only run while its entry is present (it is consumed by the
firing).  `Date.now()` values are threaded as an explicit `now` argument;
they are stored where the source stores them but no control flow in the
source ever reads them back.  External inputs (the randomly drawn question
list, the randomly generated session id, measured latencies) are passed in
as oracle parameters of the corresponding events.
-/

namespace SocketQuiz

/-- MAX_SESSIONS constant of src/server/index.js (line 75). -/
def MAX_SESSIONS : Nat := 3

/-- LOBBY_TIMER constant, in seconds (line 76). -/
def LOBBY_TIMER : Nat := 15

/-- QUESTIONS_PER_GAME constant (line 80). -/
def QUESTIONS_PER_GAME : Nat := 10

/-- A question record as loaded from data/questions.json:
id, question text, options, correctOption. -/
structure Question where
  qid : Nat
  text : String
  options : List String
  correctOption : Nat
deriving Repr, DecidableEq

/-- An entry of a player's answers array, as pushed by the submitAnswer
handler (lines 777-781): questionIndex is the session's
currentQuestionIndex at submission time (a JS number that starts at -1,
hence Int). -/
structure Answer where
  questionIndex : Int
  answer : Nat
  isCorrect : Bool
deriving Repr, DecidableEq

/-- A player object as created by the join handler (lines 660-667). -/
structure Player where
  id : Nat
  name : String
  score : Nat
  answers : List Answer
  isReady : Bool
  isHost : Bool
deriving Repr, DecidableEq

/-- The session status strings of the source. -/
inductive Status
  | lobby
  | playing
  | ended
deriving Repr, DecidableEq

/-- A session object (lines 645-652).  questionStartTime/questionEndTime
are omitted: the source writes them (lines 381-382) but only ever reads
them to fill broadcast payloads, never in any branch of control flow. -/
structure Session where
  sid : Nat
  status : Status
  players : List Player
  questions : List Question
  currentQuestionIndex : Int
  lobbyStartTime : Int
deriving Repr, DecidableEq

/-- The kinds of pending timer handles a session can own:
session.lobbyTimer, session.lobbyTimerInterval, session.timerInterval,
session.questionTimer, the anonymous 3-second reveal-pause setTimeout
(line 441), and the anonymous 30-second results-cleanup setTimeout
(line 491). -/
inductive TimerKind
  | lobbyTimeout
  | lobbyTick
  | questionTick
  | questionDeadline
  | revealPause
  | resultsGrace
deriving Repr, DecidableEq

/-- The coordinator state: the sessions Map (line 88, as a list in key
insertion order) plus all pending timer callbacks. -/
structure ServerState where
  sessions : List Session
  timers : List (Nat × TimerKind)
deriving Repr, DecidableEq

/-- The state at process start: no sessions, no timers. -/
def initialState : ServerState :=
  { sessions := [], timers := [] }

/-- JS array indexing arr[i] with an Int index: undefined (none) when the
index is negative or past the end. -/
def jsIndex (l : List α) (i : Int) : Option α :=
  if 0 ≤ i then l.get? i.toNat else none

/-- Map.get by session id: the unique (hence first) entry with that key. -/
def getSession (st : ServerState) (sid : Nat) : Option Session :=
  st.sessions.find? (fun s => s.sid == sid)

/-- Mutation of the session object held under a Map key: replace the first
(unique) entry with that key. -/
def mapFirstWhere (p : Session → Bool) (f : Session → Session) :
    List Session → List Session
  | [] => []
  | s :: rest => if p s then f s :: rest else s :: mapFirstWhere p f rest

/-- Update the session stored under a given id. -/
def updateSession (st : ServerState) (sid : Nat) (f : Session → Session) :
    ServerState :=
  { st with sessions := mapFirstWhere (fun s => s.sid == sid) f st.sessions }

/-- Map.set: overwrite the entry with the same key in place, else append
(used by the join handler at line 653). -/
def mapSet (l : List Session) (ns : Session) : List Session :=
  if l.any (fun s => s.sid == ns.sid) then
    mapFirstWhere (fun s => s.sid == ns.sid) (fun _ => ns) l
  else l ++ [ns]

/-- clearTimeout/clearInterval of the handle a session owns for one timer
kind. -/
def clearTimer (st : ServerState) (sid : Nat) (k : TimerKind) : ServerState :=
  { st with timers := st.timers.filter (fun t => !(t.1 == sid && t.2 == k)) }

/-- setTimeout/setInterval: register a pending callback. -/
def setTimer (st : ServerState) (sid : Nat) (k : TimerKind) : ServerState :=
  { st with timers := st.timers ++ [(sid, k)] }

/-- canCreateNewSession (lines 103-105). -/
def canCreateNewSession (st : ServerState) : Bool :=
  st.sessions.length < MAX_SESSIONS

/-- canPlayerJoinExistingSession (lines 706-713): some session is in lobby
status with fewer than 4 players. -/
def canPlayerJoinExistingSession (st : ServerState) : Bool :=
  st.sessions.any (fun s => s.status == Status.lobby && s.players.length < 4)

/-- startLobbyTimer (lines 287-328): clear any existing lobby timeout, set
lobbyStartTime to now, arm the 15 s timeout, and (re)arm the 1 s lobby tick
interval.  The tick broadcasts only; its handle matters for cleanup. -/
def startLobbyTimer (now : Int) (sid : Nat) (st : ServerState) : ServerState :=
  match getSession st sid with
  | none => st
  | some _ =>
    let st := clearTimer st sid TimerKind.lobbyTimeout
    let st := updateSession st sid (fun s => { s with lobbyStartTime := now })
    let st := setTimer st sid TimerKind.lobbyTimeout
    let st := clearTimer st sid TimerKind.lobbyTick
    setTimer st sid TimerKind.lobbyTick

/-- endGame (lines 449-497): mark the session ended, compute and broadcast
the ranked results (a pure function of the players, see gameResults below),
and schedule the 30 s results-grace deletion.  No other timer is touched. -/
def endGame (sid : Nat) (st : ServerState) : ServerState :=
  match getSession st sid with
  | none => st
  | some _ =>
    let st := updateSession st sid (fun s => { s with status := Status.ended })
    setTimer st sid TimerKind.resultsGrace

/-- nextQuestion (lines 365-446): advance currentQuestionIndex; past the
last question call endGame, otherwise broadcast the stripped question and
(re)arm the 1 s question tick interval and the single deadline timeout. -/
def nextQuestion (sid : Nat) (st : ServerState) : ServerState :=
  match getSession st sid with
  | none => st
  | some s =>
    let idx := s.currentQuestionIndex + 1
    let st := updateSession st sid (fun t => { t with currentQuestionIndex := idx })
    if (s.questions.length : Int) ≤ idx then
      endGame sid st
    else
      let st := clearTimer st sid TimerKind.questionTick
      let st := setTimer st sid TimerKind.questionTick
      let st := clearTimer st sid TimerKind.questionDeadline
      setTimer st sid TimerKind.questionDeadline

/-- startGame (lines 331-362): clear the lobby tick interval, set status to
playing, reset currentQuestionIndex to -1 and fire nextQuestion.  Note the
source never clears the pending lobby timeout here. -/
def startGame (sid : Nat) (st : ServerState) : ServerState :=
  match getSession st sid with
  | none => st
  | some _ =>
    let st := clearTimer st sid TimerKind.lobbyTick
    let st := updateSession st sid
      (fun s => { s with status := Status.playing, currentQuestionIndex := -1 })
    nextQuestion sid st

/-- Outcome signalled to the joining socket: the SERVER_BUSY error, the
idempotent re-join path (lines 607-626), or a successful join. -/
inductive JoinOutcome
  | rejoined
  | busy
  | joined (sid : Nat)
deriving Repr, DecidableEq

/-- The push of the new player onto the session found by the availability
scan of lines 636-641: the first session in registry order with lobby
status and fewer than 4 players. -/
def pushOntoFirstOpenLobby (pl : Player) : List Session → List Session
  | [] => []
  | s :: rest =>
    if s.status == Status.lobby && s.players.length < 4 then
      { s with players := s.players ++ [pl] } :: rest
    else s :: pushOntoFirstOpenLobby pl rest

/-- Lines 657-695: create the player object (isHost iff the target was
empty), push it onto the target session, and start the lobby timer when the
target now holds exactly one player. -/
def addPlayerToTarget (now : Int) (connId : Nat) (name : String)
    (target : Session) (st : ServerState) : ServerState :=
  let pl : Player :=
    { id := connId, name := name, score := 0, answers := [],
      isReady := false, isHost := target.players.length == 0 }
  let st := { st with sessions := pushOntoFirstOpenLobby pl st.sessions }
  if target.players.length + 1 == 1 then startLobbyTimer now target.sid st else st

/-- The fresh session object created at lines 645-652. -/
def newSession (now : Int) (freshSid : Nat) (qs : List Question) : Session :=
  { sid := freshSid, status := Status.lobby, players := [],
    questions := qs, currentQuestionIndex := -1, lobbyStartTime := now }

/-- The join handler (lines 602-703).  The fresh session id and the drawn
question list are oracle inputs (Math.random / selectRandomQuestions). -/
def handleJoin (now : Int) (connId : Nat) (name : String) (freshSid : Nat)
    (qs : List Question) (st : ServerState) : ServerState × JoinOutcome :=
  if st.sessions.any (fun s => s.players.any (fun p => p.id == connId)) then
    (st, JoinOutcome.rejoined)
  else if MAX_SESSIONS ≤ st.sessions.length && !canPlayerJoinExistingSession st then
    (st, JoinOutcome.busy)
  else
    match st.sessions.find? (fun s => s.status == Status.lobby && s.players.length < 4) with
    | some target => (addPlayerToTarget now connId name target st, JoinOutcome.joined target.sid)
    | none =>
      if canCreateNewSession st then
        let ns := newSession now freshSid qs
        let st := { st with sessions := mapSet st.sessions ns }
        (addPlayerToTarget now connId name ns st, JoinOutcome.joined freshSid)
      else (st, JoinOutcome.busy)

/-- Mutation of the first player object with a given id inside a players
array (the .find of lines 719 and 753 followed by in-place mutation). -/
def updateFirstPlayer (connId : Nat) (f : Player → Player) :
    List Player → List Player
  | [] => []
  | p :: rest => if p.id == connId then f p :: rest else p :: updateFirstPlayer connId f rest

/-- The for-of loop of the ready handler (lines 716-744): in the first
session holding the player, mark them ready; report the session id back
when every player of that session is now ready and it has more than one
player (the early-start condition of line 725). -/
def markReadyInSessions (connId : Nat) : List Session → List Session × Option Nat
  | [] => ([], none)
  | s :: rest =>
    if s.players.any (fun p => p.id == connId) then
      let upd := { s with players :=
        (updateFirstPlayer connId (fun p => { p with isReady := true }) s.players) }
      (upd :: rest,
       if upd.players.all (fun p => p.isReady) && decide (upd.players.length > 1) then
         some s.sid
       else none)
    else
      let r := markReadyInSessions connId rest
      (s :: r.1, r.2)

/-- The ready handler: mark ready, then startGame when all are ready in a
session of more than one player. -/
def handleReady (connId : Nat) (st : ServerState) : ServerState :=
  let r := markReadyInSessions connId st.sessions
  let st := { st with sessions := r.1 }
  match r.2 with
  | some sid => startGame sid st
  | none => st

/-- The for-of loop of the submitAnswer handler (lines 747-790): in the
first session holding the player, look up questions[currentQuestionIndex];
when it exists, push an answer entry onto the player and add 10 to their
score when the answer matches correctOption.  The source performs no
duplicate-answer and no deadline check. -/
def recordAnswerInSessions (connId : Nat) (a : Nat) : List Session → List Session
  | [] => []
  | s :: rest =>
    if s.players.any (fun p => p.id == connId) then
      (match jsIndex s.questions s.currentQuestionIndex with
       | none => s
       | some q =>
        let isCorrect := a == q.correctOption
        { s with players := updateFirstPlayer connId (fun p =>
            { p with
              answers := p.answers ++ [{ questionIndex := s.currentQuestionIndex,
                                         answer := a, isCorrect := isCorrect }],
              score := p.score + (if isCorrect then 10 else 0) }) s.players }) :: rest
    else s :: recordAnswerInSessions connId a rest

/-- The submitAnswer handler. -/
def handleSubmitAnswer (connId : Nat) (a : Nat) (st : ServerState) : ServerState :=
  { st with sessions := recordAnswerInSessions connId a st.sessions }

/-- The for-of loop of the startGame request handler (lines 793-801): scan
sessions for the first one in which the requesting connection is a player
marked isHost and start that session's game.  A session holding the player
without the host flag does not stop the scan (the source only breaks inside
the if). -/
def findHostSession (connId : Nat) : List Session → Option Nat
  | [] => none
  | s :: rest =>
    match s.players.find? (fun p => p.id == connId) with
    | some p => if p.isHost then some s.sid else findHostSession connId rest
    | none => findHostSession connId rest

/-- The startGame request handler. -/
def handleStartGameReq (connId : Nat) (st : ServerState) : ServerState :=
  match findHostSession connId st.sessions with
  | some sid => startGame sid st
  | none => st

/-- The delayed removal body of the disconnect handler (lines 539-568):
splice the player out of the first session holding them; when the session
becomes empty, delete it from the Map and clear its lobby timeout handle
(the only handle the source clears there).  Returns the deleted session id,
if any, so the handler can clear that timer. -/
def removeFromSessions (connId : Nat) : List Session → List Session × Option Nat
  | [] => ([], none)
  | s :: rest =>
    if s.players.any (fun p => p.id == connId) then
      let np := s.players.eraseP (fun p => p.id == connId)
      if np.length == 0 then (rest, some s.sid)
      else ({ s with players := np } :: rest, none)
    else
      let r := removeFromSessions connId rest
      (s :: r.1, r.2)

/-- The disconnect removal step (it runs 5 s after the transport-level
disconnect; the delay only sequences the event, so it is the event). -/
def handleDisconnectRemove (connId : Nat) (st : ServerState) : ServerState :=
  let r := removeFromSessions connId st.sessions
  let st := { st with sessions := r.1 }
  match r.2 with
  | some sid => clearTimer st sid TimerKind.lobbyTimeout
  | none => st

/-- The lobby timeout callback (lines 300-305): it fires only while its
handle is pending, consumes the handle, and starts the game when the
session still exists with at least one player. -/
def fireLobbyTimeout (sid : Nat) (st : ServerState) : ServerState :=
  if st.timers.contains (sid, TimerKind.lobbyTimeout) then
    let st := clearTimer st sid TimerKind.lobbyTimeout
    match getSession st sid with
    | some s => if s.players.length > 0 then startGame sid st else st
    | none => st
  else st

/-- The question deadline callback (lines 423-445): it holds the session
object in its closure, so it runs whether or not the session is still in
the Map: it clears the question tick interval, broadcasts question-ended
(with correctOption), and schedules the 3 s reveal pause. -/
def fireQuestionDeadline (sid : Nat) (st : ServerState) : ServerState :=
  if st.timers.contains (sid, TimerKind.questionDeadline) then
    let st := clearTimer st sid TimerKind.questionDeadline
    let st := clearTimer st sid TimerKind.questionTick
    setTimer st sid TimerKind.revealPause
  else st

/-- The reveal pause callback (lines 441-443): nextQuestion, which itself
checks that the session still exists. -/
def fireRevealPause (sid : Nat) (st : ServerState) : ServerState :=
  if st.timers.contains (sid, TimerKind.revealPause) then
    let st := clearTimer st sid TimerKind.revealPause
    nextQuestion sid st
  else st

/-- The results-grace callback (lines 491-496): delete the session from the
Map when it is still there. -/
def fireResultsGrace (sid : Nat) (st : ServerState) : ServerState :=
  if st.timers.contains (sid, TimerKind.resultsGrace) then
    let st := clearTimer st sid TimerKind.resultsGrace
    { st with sessions := st.sessions.eraseP (fun s => s.sid == sid) }
  else st

/-- The discrete events the coordinator reacts to: the four client events
and the four state-changing timer callbacks.  join carries its oracle
inputs (fresh session id, drawn questions). -/
inductive Event
  | join (connId : Nat) (name : String) (freshSid : Nat) (qs : List Question)
  | ready (connId : Nat)
  | submitAnswer (connId : Nat) (answer : Nat)
  | startGameReq (connId : Nat)
  | disconnectRemove (connId : Nat)
  | lobbyExpire (sid : Nat)
  | questionDeadline (sid : Nat)
  | revealAdvance (sid : Nat)
  | resultsCleanup (sid : Nat)
deriving Repr, DecidableEq

/-- One step of the single-threaded event loop. -/
def step (now : Int) (e : Event) (st : ServerState) : ServerState :=
  match e with
  | Event.join c n fid qs => (handleJoin now c n fid qs st).1
  | Event.ready c => handleReady c st
  | Event.submitAnswer c a => handleSubmitAnswer c a st
  | Event.startGameReq c => handleStartGameReq c st
  | Event.disconnectRemove c => handleDisconnectRemove c st
  | Event.lobbyExpire sid => fireLobbyTimeout sid st
  | Event.questionDeadline sid => fireQuestionDeadline sid st
  | Event.revealAdvance sid => fireRevealPause sid st
  | Event.resultsCleanup sid => fireResultsGrace sid st

/-- Run a timestamped event trace from a state. -/
def runTrace : List (Int × Event) → ServerState → ServerState
  | [], st => st
  | te :: rest, st => runTrace rest (step te.1 te.2 st)

/-! Final results and ranking (endGame, lines 459-485). -/

/-- One entry of the game-ended results payload (lines 460-465): the rank
field is written by the ranking pass, so it is 0 before that pass runs. -/
structure PResult where
  id : Nat
  name : String
  score : Nat
  correctAnswers : Nat
  rank : Nat
deriving Repr, DecidableEq

/-- The per-player projection of lines 460-465. -/
def mkResult (p : Player) : PResult :=
  { id := p.id, name := p.name, score := p.score,
    correctAnswers := (p.answers.filter (fun a => a.isCorrect)).length,
    rank := 0 }

/-- The comparator of line 466, sort((a, b) => b.score - a.score): a
precedes b when b.score ≤ a.score. -/
def scoreGe (a b : PResult) : Prop := b.score ≤ a.score

instance : DecidableRel scoreGe := fun a b => Nat.decLe b.score a.score

instance : IsTotal PResult scoreGe := ⟨fun a b => Nat.le_total b.score a.score⟩

instance : IsTrans PResult scoreGe := ⟨fun _ _ _ hab hbc => Nat.le_trans hbc hab⟩

/-- The single forEach pass of lines 469-485 over the score-sorted list,
carrying currentRank, previousScore (initially -1, an Int sentinel below
every JS score) and playersWithCurrentRank. -/
def rankPass : List PResult → Nat → Int → Nat → List PResult
  | [], _, _, _ => []
  | p :: rest, currentRank, previousScore, pwcr =>
    let next : Nat × Nat :=
      if (p.score : Int) < previousScore then (currentRank + pwcr, 1)
      else if (p.score : Int) = previousScore then (currentRank, pwcr + 1)
      else (currentRank, 1)
    { p with rank := next.1 } :: rankPass rest next.1 (p.score : Int) next.2

/-- The results computed and broadcast by endGame: map, sort descending by
score, then the ranking pass. -/
def gameResults (players : List Player) : List PResult :=
  rankPass (List.insertionSort scoreGe (players.map mkResult)) 1 (-1) 0

/-- Forget the rank field (set it back to its pre-pass value 0), to compare
result entries with the pre-ranking projections. -/
def stripRank (r : PResult) : PResult := { r with rank := 0 }

/-! The adaptive question timer (calculateAdaptiveTimer, lines 108-131).
Latencies are measured averages, hence rationals. -/

/-- MIN_QUESTION_TIMER constant (line 78). -/
def MIN_QUESTION_TIMER : ℚ := 10

/-- MAX_QUESTION_TIMER constant (line 79). -/
def MAX_QUESTION_TIMER : ℚ := 20

/-- JS Math.round for the (nonnegative) values this program rounds:
round-half-up, i.e. the floor of x + 1/2. -/
def jsRound (x : ℚ) : Int := Int.floor (x + 1 / 2)

/-- The latency-to-time-limit policy of lines 123-130, applied to the
average latency over the session's players. -/
def adaptiveTimerOfLatency (avgLatency : ℚ) : ℚ :=
  if avgLatency ≤ 100 then MIN_QUESTION_TIMER
  else if 500 ≤ avgLatency then MAX_QUESTION_TIMER
  else
    ((jsRound (MIN_QUESTION_TIMER +
      ((avgLatency - 100) / 400) * (MAX_QUESTION_TIMER - MIN_QUESTION_TIMER)) : Int) : ℚ)

/-- calculateAdaptiveTimer for an existing session, given the per-player
measured latencies (stats?.averageLatency || 0, an external input): the
mean latency is fed to the policy. -/
def calculateAdaptiveTimer (latencies : List ℚ) : ℚ :=
  adaptiveTimerOfLatency ((latencies.foldl (fun a b => a + b) 0) / (latencies.length : ℚ))

/-! Broadcast payload shapes relevant to answer withholding. -/

/-- The stripped question record built at lines 385-389 for the question
broadcast: id, question text and options only; there is no correctOption
field in this payload. -/
structure PublicQuestion where
  qid : Nat
  text : String
  options : List String
deriving Repr, DecidableEq

/-- Lines 385-389: the question event payload is built from the full
question record by dropping correctOption. -/
def questionForPlayers (q : Question) : PublicQuestion :=
  { qid := q.qid, text := q.text, options := q.options }

/-- The currentQuestion field of the gameState snapshot sent by the
idempotent-join re-delivery (line 616) and the disconnect player-count
broadcast (line 556): the raw ternary
currentQuestionIndex >= 0 ? questions[currentQuestionIndex] : null, whose
value is the FULL question record, correctOption included. -/
def gameStateCurrentQuestion (s : Session) : Option Question :=
  if 0 ≤ s.currentQuestionIndex then jsIndex s.questions s.currentQuestionIndex else none

/-- Modelled from the spec (claim C7): the number of live sessions, i.e.
sessions in lobby or playing status.  The source has no such function; its
busy check (line 629) uses sessions.size, which also counts ended sessions
awaiting their 30 s results-grace deletion.  This definition follows the
spec wording so the two conditions can be compared. -/
def liveSessionCountSpec (st : ServerState) : Nat :=
  (st.sessions.filter (fun s => s.status == Status.lobby || s.status == Status.playing)).length

/-! Concrete data used by counterexamples and witnesses. -/

/-- Ten concrete questions, each with four options and correct option 2,
standing in for one selectRandomQuestions(10) draw. -/
def demoQuestions : List Question :=
  (List.range QUESTIONS_PER_GAME).map
    (fun i => { qid := i, text := "q", options := ["a", "b", "c", "d"], correctOption := 2 })

/-- The first demo question. -/
def demoQ0 : Question :=
  { qid := 0, text := "q", options := ["a", "b", "c", "d"], correctOption := 2 }

/-- A trace in which a lone player joins, the lobby countdown expires, and
the player then submits the correct answer to question 0 three times: twice
while the question is open and once after its deadline fired. -/
def c1Trace : List (Int × Event) :=
  [(0, Event.join 1 "alice" 1 demoQuestions),
   (15000, Event.lobbyExpire 1),
   (15500, Event.submitAnswer 1 2),
   (15600, Event.submitAnswer 1 2),
   (20000, Event.questionDeadline 1),
   (20500, Event.submitAnswer 1 2)]

/-- A single-player lobby session: connection 5 has joined and nothing else
has happened; the 15 s lobby countdown has not fired. -/
def soloLobbyState : ServerState :=
  runTrace [(0, Event.join 5 "solo" 1 demoQuestions)] initialState

/-- The session soloLobbyState holds (written out). -/
def soloSession : Session :=
  { sid := 1, status := Status.lobby,
    players := [{ id := 5, name := "solo", score := 0, answers := [],
                  isReady := false, isHost := true }],
    questions := demoQuestions, currentQuestionIndex := -1, lobbyStartTime := 0 }

/-- A trace in which a lone player joins, the game starts by lobby timeout
(arming the question deadline timer), and the player then disconnects,
which deletes the now-empty session. -/
def c5Trace : List (Int × Event) :=
  [(0, Event.join 1 "a" 1 demoQuestions),
   (15000, Event.lobbyExpire 1),
   (16000, Event.disconnectRemove 1)]

/-- Session 1 plays through all ten questions: each round the deadline
fires and the reveal pause elapses. -/
def tenRounds : List (Int × Event) :=
  (List.range QUESTIONS_PER_GAME).flatMap
    (fun _ => [(0, Event.questionDeadline 1), (0, Event.revealAdvance 1)])

/-- A trace reaching a registry of three sessions, none joinable: session 1
has ended (its 30 s results grace has not elapsed) and sessions 2 and 3 are
playing single-player games. -/
def c7Trace : List (Int × Event) :=
  [(0, Event.join 1 "a" 1 demoQuestions), (15000, Event.lobbyExpire 1)] ++
  tenRounds ++
  [(60000, Event.join 2 "b" 2 demoQuestions), (75000, Event.lobbyExpire 2),
   (76000, Event.join 3 "c" 3 demoQuestions), (91000, Event.lobbyExpire 3)]

/-- The registry state reached by c7Trace. -/
def c7State : ServerState := runTrace c7Trace initialState

/-- Four players whose scores are 30, 30, 10, 0 up to order. -/
def demoPlayersA : List Player :=
  [{ id := 1, name := "p1", score := 10, answers := [], isReady := false, isHost := false },
   { id := 2, name := "p2", score := 30, answers := [], isReady := false, isHost := false },
   { id := 3, name := "p3", score := 0, answers := [], isReady := false, isHost := false },
   { id := 4, name := "p4", score := 30, answers := [], isReady := false, isHost := false }]

/-- Three players all scoring 10. -/
def demoPlayersB : List Player :=
  [{ id := 1, name := "p1", score := 10, answers := [], isReady := false, isHost := false },
   { id := 2, name := "p2", score := 10, answers := [], isReady := false, isHost := false },
   { id := 3, name := "p3", score := 10, answers := [], isReady := false, isHost := false }]

/-- The top entry of gameResults demoPlayersA (score 30, rank 1). -/
def demoTopResult : PResult :=
  { id := 2, name := "p2", score := 30, correctAnswers := 0, rank := 1 }

/-- A concrete player used to instantiate witness theorems. -/
def witnessPlayer : Player :=
  { id := 1, name := "w", score := 0, answers := [], isReady := false, isHost := true }

/-- A concrete playing session holding witnessPlayer at question 0. -/
def witnessSession : Session :=
  { sid := 1, status := Status.playing, players := [witnessPlayer],
    questions := demoQuestions, currentQuestionIndex := 0, lobbyStartTime := 0 }

/-- A server state holding only witnessSession. -/
def witnessState : ServerState :=
  { sessions := [witnessSession], timers := [] }

/-- The player object as the submitAnswer handler leaves it after one
accepted submission: the pushed answer entry (lines 777-781) and the score
bump for a correct answer (lines 784-786). -/
def recordedPlayer (p : Player) (idx : Int) (a : Nat) (q : Question) : Player :=
  { p with
    answers := p.answers ++ [{ questionIndex := idx, answer := a, isCorrect := a == q.correctOption }],
    score := p.score + (if a == q.correctOption then 10 else 0) }

/-- The capacity invariant: at most MAX_SESSIONS sessions, none holding
more than 4 players. -/
def SInv (st : ServerState) : Prop :=
  st.sessions.length ≤ MAX_SESSIONS ∧ ∀ s ∈ st.sessions, s.players.length ≤ 4

/-- No session in the registry is empty. -/
def NoEmptySessions (st : ServerState) : Prop :=
  ∀ s ∈ st.sessions, 0 < s.players.length

/-- Session ids are pairwise distinct (the registry models a Map keyed by
session id). -/
def UniqueSids (st : ServerState) : Prop :=
  (st.sessions.map (fun s => s.sid)).Nodup

/-! Helper lemmas about the list primitives of the embedding. -/

theorem length_mapFirstWhere (p : Session → Bool) (f : Session → Session)
    (l : List Session) : (mapFirstWhere p f l).length = l.length := by
  induction l with
  | nil => rfl
  | cons s rest ih => cases h : p s <;> simp [mapFirstWhere, h, ih]

theorem mem_mapFirstWhere {p : Session → Bool} {f : Session → Session}
    {l : List Session} {x : Session} (hx : x ∈ mapFirstWhere p f l) :
    x ∈ l ∨ ∃ s, s ∈ l ∧ p s = true ∧ x = f s := by
  induction l with
  | nil => simp [mapFirstWhere] at hx
  | cons s rest ih =>
    cases h : p s with
    | true =>
      simp only [mapFirstWhere, h, if_true] at hx
      rcases List.mem_cons.mp hx with rfl | hx2
      · exact Or.inr ⟨s, by simp, h, rfl⟩
      · exact Or.inl (List.mem_cons_of_mem _ hx2)
    | false =>
      simp only [mapFirstWhere, h, Bool.false_eq_true, if_false] at hx
      rcases List.mem_cons.mp hx with rfl | hx2
      · exact Or.inl (by simp)
      · rcases ih hx2 with h1 | ⟨t, ht, hp, rfl⟩
        · exact Or.inl (List.mem_cons_of_mem _ h1)
        · exact Or.inr ⟨t, List.mem_cons_of_mem _ ht, hp, rfl⟩

theorem length_updateFirstPlayer (c : Nat) (f : Player → Player)
    (l : List Player) : (updateFirstPlayer c f l).length = l.length := by
  induction l with
  | nil => rfl
  | cons p rest ih => cases h : (p.id == c) <;> simp [updateFirstPlayer, h, ih]

theorem length_pushOntoFirstOpenLobby (pl : Player) (l : List Session) :
    (pushOntoFirstOpenLobby pl l).length = l.length := by
  induction l with
  | nil => rfl
  | cons s rest ih =>
    cases h : (s.status == Status.lobby && decide (s.players.length < 4)) <;>
      simp [pushOntoFirstOpenLobby, h, ih]

theorem mem_pushOntoFirstOpenLobby {pl : Player} {l : List Session} {x : Session}
    (hx : x ∈ pushOntoFirstOpenLobby pl l) :
    x ∈ l ∨ ∃ s, s ∈ l ∧ s.players.length < 4 ∧ x = { s with players := s.players ++ [pl] } := by
  induction l with
  | nil => simp [pushOntoFirstOpenLobby] at hx
  | cons s rest ih =>
    cases h : (s.status == Status.lobby && decide (s.players.length < 4)) with
    | true =>
      simp only [pushOntoFirstOpenLobby, h, if_true] at hx
      rcases List.mem_cons.mp hx with rfl | hx2
      · refine Or.inr ⟨s, by simp, ?_, rfl⟩
        have := (Bool.and_eq_true _ _).mp h
        simpa using this.2
      · exact Or.inl (List.mem_cons_of_mem _ hx2)
    | false =>
      simp only [pushOntoFirstOpenLobby, h, Bool.false_eq_true, if_false] at hx
      rcases List.mem_cons.mp hx with rfl | hx2
      · exact Or.inl (by simp)
      · rcases ih hx2 with h1 | ⟨t, ht, hp, rfl⟩
        · exact Or.inl (List.mem_cons_of_mem _ h1)
        · exact Or.inr ⟨t, List.mem_cons_of_mem _ ht, hp, rfl⟩

theorem markReadyInSessions_fst_length (c : Nat) (l : List Session) :
    (markReadyInSessions c l).1.length = l.length := by
  induction l with
  | nil => rfl
  | cons s rest ih =>
    cases h : s.players.any (fun p => p.id == c) <;>
      simp [markReadyInSessions, h, ih]

theorem mem_markReadyInSessions {c : Nat} {l : List Session} {x : Session}
    (hx : x ∈ (markReadyInSessions c l).1) :
    ∃ s ∈ l, x.players.length = s.players.length := by
  induction l with
  | nil => simp [markReadyInSessions] at hx
  | cons s rest ih =>
    cases h : s.players.any (fun p => p.id == c) with
    | true =>
      simp only [markReadyInSessions, h, if_true] at hx
      rcases List.mem_cons.mp hx with rfl | hx3
      · exact ⟨s, by simp, by simp [length_updateFirstPlayer]⟩
      · exact ⟨x, List.mem_cons_of_mem _ hx3, rfl⟩
    | false =>
      simp only [markReadyInSessions, h, Bool.false_eq_true, if_false] at hx
      rcases List.mem_cons.mp hx with rfl | hx2
      · exact ⟨x, by simp, rfl⟩
      · rcases ih hx2 with ⟨t, ht, hl⟩
        exact ⟨t, List.mem_cons_of_mem _ ht, hl⟩

theorem mem_recordAnswerInSessions {c a : Nat} {l : List Session} {x : Session}
    (hx : x ∈ recordAnswerInSessions c a l) :
    ∃ s ∈ l, x.players.length = s.players.length := by
  induction l with
  | nil => simp [recordAnswerInSessions] at hx
  | cons s rest ih =>
    cases h : s.players.any (fun p => p.id == c) with
    | true =>
      simp only [recordAnswerInSessions, h, if_true] at hx
      rcases List.mem_cons.mp hx with rfl | hx2
      · refine ⟨s, by simp, ?_⟩
        cases hq : jsIndex s.questions s.currentQuestionIndex <;>
          simp [hq, length_updateFirstPlayer]
      · exact ⟨x, List.mem_cons_of_mem _ hx2, rfl⟩
    | false =>
      simp only [recordAnswerInSessions, h, Bool.false_eq_true, if_false] at hx
      rcases List.mem_cons.mp hx with rfl | hx2
      · exact ⟨x, by simp, rfl⟩
      · rcases ih hx2 with ⟨t, ht, hl⟩
        exact ⟨t, List.mem_cons_of_mem _ ht, hl⟩

theorem recordAnswerInSessions_length (c a : Nat) (l : List Session) :
    (recordAnswerInSessions c a l).length = l.length := by
  induction l with
  | nil => rfl
  | cons s rest ih =>
    cases h : s.players.any (fun p => p.id == c) <;>
      simp [recordAnswerInSessions, h, ih]

theorem removeFromSessions_fst_length (c : Nat) (l : List Session) :
    (removeFromSessions c l).1.length ≤ l.length := by
  induction l with
  | nil => simp [removeFromSessions]
  | cons s rest ih =>
    cases h : s.players.any (fun p => p.id == c) with
    | true =>
      simp only [removeFromSessions, h, if_true]
      split <;> simp
    | false =>
      simp only [removeFromSessions, h, Bool.false_eq_true, if_false]
      simpa using Nat.succ_le_succ ih

theorem mem_removeFromSessions {c : Nat} {l : List Session} {x : Session}
    (hx : x ∈ (removeFromSessions c l).1) :
    ∃ s ∈ l, x.players.length ≤ s.players.length := by
  induction l with
  | nil => simp [removeFromSessions] at hx
  | cons s rest ih =>
    cases h : s.players.any (fun p => p.id == c) with
    | true =>
      simp only [removeFromSessions, h, if_true] at hx
      split at hx
      · exact ⟨x, List.mem_cons_of_mem _ hx, Nat.le_refl _⟩
      · rcases List.mem_cons.mp hx with rfl | hx2
        · exact ⟨s, by simp, by
            simpa using (List.eraseP_sublist s.players).length_le⟩
        · exact ⟨x, List.mem_cons_of_mem _ hx2, Nat.le_refl _⟩
    | false =>
      simp only [removeFromSessions, h, Bool.false_eq_true, if_false] at hx
      rcases List.mem_cons.mp hx with rfl | hx2
      · exact ⟨x, by simp, Nat.le_refl _⟩
      · rcases ih hx2 with ⟨t, ht, hl⟩
        exact ⟨t, List.mem_cons_of_mem _ ht, hl⟩

/-! Preservation of the capacity invariant by every operation. -/

theorem SInv_clearTimer {st : ServerState} {sid : Nat} {k : TimerKind}
    (h : SInv st) : SInv (clearTimer st sid k) := h

theorem SInv_setTimer {st : ServerState} {sid : Nat} {k : TimerKind}
    (h : SInv st) : SInv (setTimer st sid k) := h

theorem SInv_updateSession {st : ServerState} {sid : Nat} {f : Session → Session}
    (hf : ∀ s, (f s).players.length = s.players.length) (h : SInv st) :
    SInv (updateSession st sid f) := by
  obtain ⟨h1, h2⟩ := h
  refine ⟨by simpa [updateSession, length_mapFirstWhere] using h1, ?_⟩
  intro s hs
  simp only [updateSession] at hs
  rcases mem_mapFirstWhere hs with hm | ⟨t, ht, _, rfl⟩
  · exact h2 s hm
  · rw [hf]
    exact h2 t ht

theorem SInv_startLobbyTimer {st : ServerState} (now : Int) (sid : Nat)
    (h : SInv st) : SInv (startLobbyTimer now sid st) := by
  unfold startLobbyTimer
  cases getSession st sid with
  | none => exact h
  | some s =>
    exact SInv_setTimer (SInv_clearTimer (SInv_setTimer
      (SInv_updateSession (fun _ => rfl) (SInv_clearTimer h))))

theorem SInv_endGame {st : ServerState} (sid : Nat) (h : SInv st) :
    SInv (endGame sid st) := by
  unfold endGame
  cases getSession st sid with
  | none => exact h
  | some s => exact SInv_setTimer (SInv_updateSession (fun _ => rfl) h)

theorem SInv_nextQuestion {st : ServerState} (sid : Nat) (h : SInv st) :
    SInv (nextQuestion sid st) := by
  unfold nextQuestion
  cases getSession st sid with
  | none => exact h
  | some s =>
    dsimp only
    split
    · exact SInv_endGame _ (SInv_updateSession (fun _ => rfl) h)
    · exact SInv_setTimer (SInv_clearTimer (SInv_setTimer
        (SInv_clearTimer (SInv_updateSession (fun _ => rfl) h))))

theorem SInv_startGame {st : ServerState} (sid : Nat) (h : SInv st) :
    SInv (startGame sid st) := by
  unfold startGame
  cases getSession st sid with
  | none => exact h
  | some s =>
    exact SInv_nextQuestion _ (SInv_updateSession (fun _ => rfl) (SInv_clearTimer h))

theorem SInv_push {st : ServerState} {pl : Player} (h : SInv st) :
    SInv { st with sessions := pushOntoFirstOpenLobby pl st.sessions } := by
  obtain ⟨h1, h2⟩ := h
  refine ⟨by simpa [length_pushOntoFirstOpenLobby] using h1, ?_⟩
  intro s hs
  simp only at hs
  rcases mem_pushOntoFirstOpenLobby hs with hm | ⟨t, ht, hlt, rfl⟩
  · exact h2 s hm
  · simp only [List.length_append, List.length_cons, List.length_nil]
    omega

theorem SInv_addPlayerToTarget {st : ServerState} (now : Int) (c : Nat)
    (n : String) (target : Session) (h : SInv st) :
    SInv (addPlayerToTarget now c n target st) := by
  unfold addPlayerToTarget
  dsimp only
  split
  · exact SInv_startLobbyTimer _ _ (SInv_push h)
  · exact SInv_push h

theorem SInv_mapSet {st : ServerState} {ns : Session} (h : SInv st)
    (hlen : st.sessions.length < MAX_SESSIONS) (hns : ns.players.length ≤ 4) :
    SInv { st with sessions := mapSet st.sessions ns } := by
  obtain ⟨h1, h2⟩ := h
  unfold mapSet
  split
  · refine ⟨by simpa [length_mapFirstWhere] using h1, ?_⟩
    intro s hs
    simp only at hs
    rcases mem_mapFirstWhere hs with hm | ⟨t, ht, _, rfl⟩
    · exact h2 s hm
    · exact hns
  · refine ⟨by simp only [List.length_append, List.length_cons, List.length_nil]; omega, ?_⟩
    intro s hs
    simp only [List.mem_append, List.mem_singleton] at hs
    rcases hs with hm | rfl
    · exact h2 s hm
    · exact hns

theorem SInv_handleJoin {st : ServerState} (now : Int) (c : Nat) (n : String)
    (fid : Nat) (qs : List Question) (h : SInv st) :
    SInv (handleJoin now c n fid qs st).1 := by
  unfold handleJoin
  split
  · exact h
  · split
    · exact h
    · split
      · exact SInv_addPlayerToTarget _ _ _ _ h
      · split
        case _ hcan =>
          refine SInv_addPlayerToTarget _ _ _ _ (SInv_mapSet h ?_ ?_)
          · simpa [canCreateNewSession] using hcan
          · simp [newSession]
        case _ => exact h

theorem SInv_handleReady {st : ServerState} (c : Nat) (h : SInv st) :
    SInv (handleReady c st) := by
  have hbase : SInv { st with sessions := (markReadyInSessions c st.sessions).1 } := by
    obtain ⟨h1, h2⟩ := h
    refine ⟨by simpa [markReadyInSessions_fst_length] using h1, ?_⟩
    intro s hs
    rcases mem_markReadyInSessions hs with ⟨t, ht, hl⟩
    rw [hl]
    exact h2 t ht
  unfold handleReady
  dsimp only
  cases hr : (markReadyInSessions c st.sessions).2 with
  | none => simp only [hr]; exact hbase
  | some sid => simp only [hr]; exact SInv_startGame _ hbase

theorem SInv_handleSubmitAnswer {st : ServerState} (c a : Nat) (h : SInv st) :
    SInv (handleSubmitAnswer c a st) := by
  obtain ⟨h1, h2⟩ := h
  refine ⟨by simpa [handleSubmitAnswer, recordAnswerInSessions_length] using h1, ?_⟩
  intro s hs
  simp only [handleSubmitAnswer] at hs
  rcases mem_recordAnswerInSessions hs with ⟨t, ht, hl⟩
  rw [hl]
  exact h2 t ht

theorem SInv_handleStartGameReq {st : ServerState} (c : Nat) (h : SInv st) :
    SInv (handleStartGameReq c st) := by
  unfold handleStartGameReq
  cases findHostSession c st.sessions with
  | none => exact h
  | some sid => exact SInv_startGame _ h

theorem SInv_handleDisconnectRemove {st : ServerState} (c : Nat) (h : SInv st) :
    SInv (handleDisconnectRemove c st) := by
  have hbase : SInv { st with sessions := (removeFromSessions c st.sessions).1 } := by
    obtain ⟨h1, h2⟩ := h
    refine ⟨Nat.le_trans (removeFromSessions_fst_length c st.sessions) h1, ?_⟩
    intro s hs
    rcases mem_removeFromSessions hs with ⟨t, ht, hl⟩
    exact Nat.le_trans hl (h2 t ht)
  unfold handleDisconnectRemove
  dsimp only
  cases hr : (removeFromSessions c st.sessions).2 with
  | none => simp only [hr]; exact hbase
  | some sid => simp only [hr]; exact SInv_clearTimer hbase

theorem SInv_fireLobbyTimeout {st : ServerState} (sid : Nat) (h : SInv st) :
    SInv (fireLobbyTimeout sid st) := by
  unfold fireLobbyTimeout
  split
  · dsimp only
    cases getSession (clearTimer st sid TimerKind.lobbyTimeout) sid with
    | none => exact SInv_clearTimer h
    | some s =>
      dsimp only
      split
      · exact SInv_startGame _ (SInv_clearTimer h)
      · exact SInv_clearTimer h
  · exact h

theorem SInv_fireQuestionDeadline {st : ServerState} (sid : Nat) (h : SInv st) :
    SInv (fireQuestionDeadline sid st) := by
  unfold fireQuestionDeadline
  split
  · exact SInv_setTimer (SInv_clearTimer (SInv_clearTimer h))
  · exact h

theorem SInv_fireRevealPause {st : ServerState} (sid : Nat) (h : SInv st) :
    SInv (fireRevealPause sid st) := by
  unfold fireRevealPause
  split
  · exact SInv_nextQuestion _ (SInv_clearTimer h)
  · exact h

theorem SInv_fireResultsGrace {st : ServerState} (sid : Nat) (h : SInv st) :
    SInv (fireResultsGrace sid st) := by
  obtain ⟨h1, h2⟩ := h
  unfold fireResultsGrace
  split
  · refine ⟨?_, ?_⟩
    · exact Nat.le_trans (List.eraseP_sublist _).length_le h1
    · intro s hs
      exact h2 s ((List.eraseP_sublist _).subset hs)
  · exact ⟨h1, h2⟩

theorem SInv_step {st : ServerState} (now : Int) (e : Event) (h : SInv st) :
    SInv (step now e st) := by
  cases e with
  | join c n fid qs => exact SInv_handleJoin now c n fid qs h
  | ready c => exact SInv_handleReady c h
  | submitAnswer c a => exact SInv_handleSubmitAnswer c a h
  | startGameReq c => exact SInv_handleStartGameReq c h
  | disconnectRemove c => exact SInv_handleDisconnectRemove c h
  | lobbyExpire sid => exact SInv_fireLobbyTimeout sid h
  | questionDeadline sid => exact SInv_fireQuestionDeadline sid h
  | revealAdvance sid => exact SInv_fireRevealPause sid h
  | resultsCleanup sid => exact SInv_fireResultsGrace sid h

theorem SInv_runTrace {st : ServerState} (tr : List (Int × Event)) (h : SInv st) :
    SInv (runTrace tr st) := by
  induction tr generalizing st with
  | nil => exact h
  | cons te rest ih => exact ih (SInv_step te.1 te.2 h)

/-- C2: over every sequence of join, ready, submitAnswer, startGame,
disconnect and timer events processed from the initial (empty) registry,
the number of sessions in the registry never exceeds MAX_SESSIONS = 3, and
every session always holds at most 4 players (its player count, a list
length, is of course also ≥ 0).  Session creation is guarded by
canCreateNewSession and a player is only ever pushed onto a session the
availability scan found with fewer than 4 players, so admission never
overfills a session and never overshoots the session limit. -/
theorem capacity_invariant_all_traces (tr : List (Int × Event)) :
    (runTrace tr initialState).sessions.length ≤ MAX_SESSIONS ∧
    (runTrace tr initialState).sessions.all (fun s => s.players.length ≤ 4) = true := by
  have h : SInv (runTrace tr initialState) :=
    SInv_runTrace tr ⟨by simp [initialState, MAX_SESSIONS], by simp [initialState]⟩
  refine ⟨h.1, ?_⟩
  rw [List.all_eq_true]
  intro s hs
  simpa using h.2 s hs

/-! The idempotent join path. -/

theorem any_mapFirstWhere {p : Session → Bool} {f : Session → Session}
    {q : Session → Bool} (hq : ∀ s, q (f s) = q s) (l : List Session) :
    (mapFirstWhere p f l).any q = l.any q := by
  induction l with
  | nil => rfl
  | cons s rest ih => cases h : p s <;> simp [mapFirstWhere, h, ih, hq]

theorem mapFirstWhere_exists {p : Session → Bool} (f : Session → Session)
    {l : List Session} (h : l.any p = true) :
    ∃ s, s ∈ l ∧ p s = true ∧ f s ∈ mapFirstWhere p f l := by
  induction l with
  | nil => simp at h
  | cons s rest ih =>
    cases hp : p s with
    | true => exact ⟨s, by simp, hp, by simp [mapFirstWhere, hp]⟩
    | false =>
      have h2 : rest.any p = true := by simpa [hp] using h
      rcases ih h2 with ⟨t, ht, htp, htm⟩
      exact ⟨t, List.mem_cons_of_mem _ ht, htp,
        by simp [mapFirstWhere, hp, List.mem_cons_of_mem, htm]⟩

theorem any_of_find?_eq_some {p : Session → Bool} {l : List Session}
    {t : Session} (h : l.find? p = some t) : l.any p = true :=
  List.any_eq_true.mpr ⟨t, List.mem_of_find?_eq_some h, List.find?_some h⟩

theorem pushOntoFirstOpenLobby_contains (pl : Player) {l : List Session}
    (hex : l.any (fun s => s.status == Status.lobby && decide (s.players.length < 4)) = true) :
    (pushOntoFirstOpenLobby pl l).any (fun s => s.players.any (fun p => p.id == pl.id)) = true := by
  induction l with
  | nil => simp at hex
  | cons s rest ih =>
    cases h : (s.status == Status.lobby && decide (s.players.length < 4)) with
    | true => simp [pushOntoFirstOpenLobby, h]
    | false =>
      have hex2 : rest.any
          (fun s => s.status == Status.lobby && decide (s.players.length < 4)) = true := by
        simpa [h] using hex
      simp [pushOntoFirstOpenLobby, h, ih hex2]

theorem mapSet_any_of_guard {g : Session → Bool} {l : List Session}
    {ns : Session} (hg : g ns = true) : (mapSet l ns).any g = true := by
  unfold mapSet
  split
  case isTrue h =>
    rcases mapFirstWhere_exists (fun _ => ns) h with ⟨t, ht, htp, htm⟩
    exact List.any_eq_true.mpr ⟨ns, htm, hg⟩
  case isFalse h => simp [hg]

theorem startLobbyTimer_sessions_any (now : Int) (sid : Nat) (st : ServerState)
    (q : Session → Bool) (hq : ∀ s, q { s with lobbyStartTime := now } = q s) :
    (startLobbyTimer now sid st).sessions.any q = st.sessions.any q := by
  unfold startLobbyTimer
  cases getSession st sid with
  | none => rfl
  | some s =>
    show (mapFirstWhere _ _ st.sessions).any q = st.sessions.any q
    exact any_mapFirstWhere hq st.sessions

theorem addPlayerToTarget_contains (st : ServerState) (now : Int) (c : Nat)
    (n : String) (target : Session)
    (hguard : st.sessions.any
      (fun s => s.status == Status.lobby && decide (s.players.length < 4)) = true) :
    (addPlayerToTarget now c n target st).sessions.any
      (fun s => s.players.any (fun p => p.id == c)) = true := by
  unfold addPlayerToTarget
  dsimp only
  have hpush := pushOntoFirstOpenLobby_contains
    { id := c, name := n, score := 0, answers := [],
      isReady := false, isHost := target.players.length == 0 } hguard
  split
  · rw [startLobbyTimer_sessions_any _ _ _ _ (fun s => rfl)]
    exact hpush
  · exact hpush

theorem handleJoin_rejoin {st : ServerState} (now : Int) (c : Nat) (n : String)
    (fid : Nat) (qs : List Question)
    (h : st.sessions.any (fun s => s.players.any (fun p => p.id == c)) = true) :
    handleJoin now c n fid qs st = (st, JoinOutcome.rejoined) := by
  unfold handleJoin
  rw [if_pos h]

/-- C6: a second join event for a connection id that already belongs to a
session is a no-op on the server state, whatever the first join did
(rejoined an existing session, was refused as busy, joined an existing
lobby, or created a fresh session): the state after two joins for the same
connection id equals the state after the first, so in particular no new
session is created, no second Player entry appears anywhere, and the total
number of Player entries across the registry is unchanged. -/
theorem join_idempotent (st : ServerState) (now1 now2 : Int) (c : Nat)
    (n1 n2 : String) (fid1 fid2 : Nat) (qs1 qs2 : List Question) :
    (handleJoin now2 c n2 fid2 qs2 (handleJoin now1 c n1 fid1 qs1 st).1).1
      = (handleJoin now1 c n1 fid1 qs1 st).1 := by
  cases h1 : st.sessions.any (fun s => s.players.any (fun p => p.id == c)) with
  | true =>
    rw [handleJoin_rejoin now1 c n1 fid1 qs1 h1]
    rw [show ((st, JoinOutcome.rejoined) : ServerState × JoinOutcome).1 = st from rfl]
    rw [handleJoin_rejoin now2 c n2 fid2 qs2 h1]
  | false =>
    cases h2 : (decide (MAX_SESSIONS ≤ st.sessions.length) && !canPlayerJoinExistingSession st) with
    | true =>
      have e1 : handleJoin now1 c n1 fid1 qs1 st = (st, JoinOutcome.busy) := by
        unfold handleJoin
        rw [if_neg (by simp [h1]), if_pos h2]
      have e2 : handleJoin now2 c n2 fid2 qs2 st = (st, JoinOutcome.busy) := by
        unfold handleJoin
        rw [if_neg (by simp [h1]), if_pos h2]
      rw [e1]
      rw [show ((st, JoinOutcome.busy) : ServerState × JoinOutcome).1 = st from rfl]
      rw [e2]
    | false =>
      cases h3 : st.sessions.find?
          (fun s => s.status == Status.lobby && decide (s.players.length < 4)) with
      | some target =>
        have e1 : handleJoin now1 c n1 fid1 qs1 st
            = (addPlayerToTarget now1 c n1 target st, JoinOutcome.joined target.sid) := by
          unfold handleJoin
          rw [if_neg (by simp [h1]), if_neg (by simp [h2]), h3]
        have hc : (addPlayerToTarget now1 c n1 target st).sessions.any
            (fun s => s.players.any (fun p => p.id == c)) = true :=
          addPlayerToTarget_contains st now1 c n1 target (any_of_find?_eq_some h3)
        rw [e1]
        rw [show ((addPlayerToTarget now1 c n1 target st, JoinOutcome.joined target.sid)
          : ServerState × JoinOutcome).1 = addPlayerToTarget now1 c n1 target st from rfl]
        rw [handleJoin_rejoin now2 c n2 fid2 qs2 hc]
      | none =>
        cases h4 : canCreateNewSession st with
        | true =>
          have e1 : handleJoin now1 c n1 fid1 qs1 st
              = (addPlayerToTarget now1 c n1 (newSession now1 fid1 qs1)
                  { st with sessions := mapSet st.sessions (newSession now1 fid1 qs1) },
                 JoinOutcome.joined fid1) := by
            unfold handleJoin
            rw [if_neg (by simp [h1]), if_neg (by simp [h2]), h3, if_pos h4]
          have hguard : (mapSet st.sessions (newSession now1 fid1 qs1)).any
              (fun s => s.status == Status.lobby && decide (s.players.length < 4)) = true :=
            mapSet_any_of_guard (by simp [newSession])
          have hc := addPlayerToTarget_contains
            { st with sessions := mapSet st.sessions (newSession now1 fid1 qs1) }
            now1 c n1 (newSession now1 fid1 qs1) hguard
          rw [e1]
          rw [show ((addPlayerToTarget now1 c n1 (newSession now1 fid1 qs1)
              { st with sessions := mapSet st.sessions (newSession now1 fid1 qs1) },
              JoinOutcome.joined fid1) : ServerState × JoinOutcome).1
            = addPlayerToTarget now1 c n1 (newSession now1 fid1 qs1)
              { st with sessions := mapSet st.sessions (newSession now1 fid1 qs1) } from rfl]
          rw [handleJoin_rejoin now2 c n2 fid2 qs2 hc]
        | false =>
          have e1 : handleJoin now1 c n1 fid1 qs1 st = (st, JoinOutcome.busy) := by
            unfold handleJoin
            rw [if_neg (by simp [h1]), if_neg (by simp [h2]), h3, if_neg (by simp [h4])]
          have e2 : handleJoin now2 c n2 fid2 qs2 st = (st, JoinOutcome.busy) := by
            unfold handleJoin
            rw [if_neg (by simp [h1]), if_neg (by simp [h2]), h3, if_neg (by simp [h4])]
          rw [e1]
          rw [show ((st, JoinOutcome.busy) : ServerState × JoinOutcome).1 = st from rfl]
          rw [e2]

/-! The SERVER_BUSY condition. -/

theorem any_eq_false_of_find?_eq_none {p : Session → Bool} {l : List Session}
    (h : l.find? p = none) : l.any p = false := by
  rw [List.any_eq_false]
  intro x hx
  exact List.find?_eq_none.mp h x hx

/-- C7 (amended): for a connection that belongs to no session, the join
handler signals SERVER_BUSY exactly when no session is a lobby with fewer
than 4 players AND the TOTAL number of sessions in the registry — ended
sessions awaiting their 30 s results-grace deletion included — has reached
MAX_SESSIONS; and a busy join leaves the state completely unchanged.  The
original claim counted only lobby/playing sessions; the source (line 629)
tests sessions.size, which also counts ended sessions, see the
counterexample. -/
theorem server_busy_iff_registry_full (st : ServerState) (now : Int) (c : Nat)
    (n : String) (fid : Nat) (qs : List Question)
    (hnew : st.sessions.any (fun s => s.players.any (fun p => p.id == c)) = false) :
    ((handleJoin now c n fid qs st).2 = JoinOutcome.busy ↔
      (MAX_SESSIONS ≤ st.sessions.length ∧
       st.sessions.any
         (fun s => s.status == Status.lobby && decide (s.players.length < 4)) = false)) ∧
    ((handleJoin now c n fid qs st).2 = JoinOutcome.busy →
      (handleJoin now c n fid qs st).1 = st) := by
  cases h2 : (decide (MAX_SESSIONS ≤ st.sessions.length) && !canPlayerJoinExistingSession st) with
  | true =>
    have e1 : handleJoin now c n fid qs st = (st, JoinOutcome.busy) := by
      unfold handleJoin
      rw [if_neg (by simp [hnew]), if_pos h2]
    simp only [e1]
    simp only [Bool.and_eq_true, decide_eq_true_eq, Bool.not_eq_true',
      canPlayerJoinExistingSession] at h2
    simp [h2.1, h2.2]
  | false =>
    cases h3 : st.sessions.find?
        (fun s => s.status == Status.lobby && decide (s.players.length < 4)) with
    | some target =>
      have e1 : handleJoin now c n fid qs st
          = (addPlayerToTarget now c n target st, JoinOutcome.joined target.sid) := by
        unfold handleJoin
        rw [if_neg (by simp [hnew]), if_neg (by simp [h2]), h3]
      have hany := any_of_find?_eq_some h3
      simp only [e1]
      constructor
      · constructor
        · intro hb
          exact absurd hb (by simp)
        · rintro ⟨hle, hfalse⟩
          rw [hany] at hfalse
          exact absurd hfalse (by simp)
      · intro hb
        exact absurd hb (by simp)
    | none =>
      cases h4 : canCreateNewSession st with
      | true =>
        have e1 : handleJoin now c n fid qs st
            = (addPlayerToTarget now c n (newSession now fid qs)
                { st with sessions := mapSet st.sessions (newSession now fid qs) },
               JoinOutcome.joined fid) := by
          unfold handleJoin
          rw [if_neg (by simp [hnew]), if_neg (by simp [h2]), h3, if_pos h4]
        have hlt : st.sessions.length < MAX_SESSIONS := by
          simpa [canCreateNewSession] using h4
        simp only [e1]
        constructor
        · constructor
          · intro hb
            exact absurd hb (by simp)
          · rintro ⟨hle, hfalse⟩
            omega
        · intro hb
          exact absurd hb (by simp)
      | false =>
        have e1 : handleJoin now c n fid qs st = (st, JoinOutcome.busy) := by
          unfold handleJoin
          rw [if_neg (by simp [hnew]), if_neg (by simp [h2]), h3, if_neg (by simp [h4])]
        have hge : MAX_SESSIONS ≤ st.sessions.length := by
          have := h4
          simp only [canCreateNewSession, decide_eq_false_iff_not, Nat.not_lt] at this
          exact this
        simp only [e1]
        simp [hge, any_eq_false_of_find?_eq_none h3]

/-- C7 counterexample: in the reachable state c7State the registry holds
one ended session (still inside its 30 s results-viewing window) and two
playing sessions, so only TWO sessions are live in the claim's sense, yet a
fresh join is refused with SERVER_BUSY because sessions.size counts the
ended session too; the claim's only-if direction (busy implies the number
of lobby-or-playing sessions equals MAX_SESSIONS = 3) is therefore false on
the code. -/
theorem busy_with_two_live_sessions :
    (handleJoin 99000 40 "dave" 9 demoQuestions c7State).2 = JoinOutcome.busy ∧
    liveSessionCountSpec c7State = 2 ∧ MAX_SESSIONS = 3 := by
  exact ⟨by decide, by decide, rfl⟩

/-- Witness for server_busy_iff_registry_full: its conclusion instantiated
at the concrete reachable state c7State and a fresh connection id. -/
theorem server_busy_iff_registry_full_witness :
    ((handleJoin 99000 40 "dave" 9 demoQuestions c7State).2 = JoinOutcome.busy ↔
      (MAX_SESSIONS ≤ c7State.sessions.length ∧
       c7State.sessions.any
         (fun s => s.status == Status.lobby && decide (s.players.length < 4)) = false)) ∧
    ((handleJoin 99000 40 "dave" 9 demoQuestions c7State).2 = JoinOutcome.busy →
      (handleJoin 99000 40 "dave" 9 demoQuestions c7State).1 = c7State) :=
  server_busy_iff_registry_full c7State 99000 40 "dave" 9 demoQuestions (by decide)

/-! The submitAnswer handler: its guards and its unconditional append. -/

theorem recordAnswerInSessions_of_not_found {c a : Nat} {l : List Session}
    (h : l.find? (fun t => t.players.any (fun p => p.id == c)) = none) :
    recordAnswerInSessions c a l = l := by
  induction l with
  | nil => rfl
  | cons s rest ih =>
    cases hp : s.players.any (fun p => p.id == c) with
    | true => simp [List.find?_cons, hp] at h
    | false =>
      simp only [List.find?_cons, hp] at h
      simp [recordAnswerInSessions, hp, ih h]

theorem recordAnswerInSessions_of_no_question {c a : Nat} {l : List Session}
    {s : Session}
    (h : l.find? (fun t => t.players.any (fun p => p.id == c)) = some s)
    (hq : jsIndex s.questions s.currentQuestionIndex = none) :
    recordAnswerInSessions c a l = l := by
  induction l with
  | nil => simp at h
  | cons x rest ih =>
    cases hp : x.players.any (fun p => p.id == c) with
    | true =>
      simp only [List.find?_cons, hp] at h
      have hxs : x = s := Option.some.inj h
      subst hxs
      simp [recordAnswerInSessions, hp, hq]
    | false =>
      simp only [List.find?_cons, hp] at h
      simp [recordAnswerInSessions, hp, ih h]

/-- C10: a submitAnswer event from a connection outside every session, or
whose session's currentQuestionIndex addresses no question (still -1 in the
lobby, or past the last question), leaves the entire server state
unchanged: no answer entry is appended and no score is modified anywhere.
These are exactly the two early returns of the handler (lines 761-764 and
770-773). -/
theorem submitAnswer_guards_no_mutation (st : ServerState) (c a : Nat) :
    (st.sessions.find? (fun t => t.players.any (fun p => p.id == c)) = none →
      handleSubmitAnswer c a st = st) ∧
    (∀ s, st.sessions.find? (fun t => t.players.any (fun p => p.id == c)) = some s →
      (s.currentQuestionIndex < 0 ∨ (s.questions.length : Int) ≤ s.currentQuestionIndex) →
      handleSubmitAnswer c a st = st) := by
  constructor
  · intro h
    unfold handleSubmitAnswer
    rw [recordAnswerInSessions_of_not_found h]
  · intro s hs hidx
    have hq : jsIndex s.questions s.currentQuestionIndex = none := by
      unfold jsIndex
      rcases hidx with hneg | hge
      · rw [if_neg (by omega)]
      · split
        case isTrue h0 => exact List.get?_eq_none.mpr (by omega)
        case isFalse => rfl
    unfold handleSubmitAnswer
    rw [recordAnswerInSessions_of_no_question hs hq]

/-- Witness for submitAnswer_guards_no_mutation: a lobby session
(currentQuestionIndex = -1) ignores a submission from its own player. -/
theorem submitAnswer_guards_no_mutation_witness :
    handleSubmitAnswer 5 2 soloLobbyState = soloLobbyState :=
  (submitAnswer_guards_no_mutation soloLobbyState 5 2).2 soloSession
    (by decide) (by decide)

theorem updateFirstPlayer_any {c : Nat} {f : Player → Player}
    (hf : ∀ p, (f p).id = p.id) (l : List Player) :
    (updateFirstPlayer c f l).any (fun p => p.id == c)
      = l.any (fun p => p.id == c) := by
  induction l with
  | nil => rfl
  | cons x rest ih =>
    cases hx : (x.id == c) with
    | true => simp [updateFirstPlayer, hx, hf]
    | false => simp [updateFirstPlayer, hx, ih]

theorem updateFirstPlayer_find? {c : Nat} {f : Player → Player}
    (hf : ∀ p, (f p).id = p.id) {l : List Player} {p : Player}
    (h : l.find? (fun r => r.id == c) = some p) :
    (updateFirstPlayer c f l).find? (fun r => r.id == c) = some (f p) := by
  induction l with
  | nil => simp at h
  | cons x rest ih =>
    cases hx : (x.id == c) with
    | true =>
      simp only [List.find?_cons, hx] at h
      have hxp : x = p := Option.some.inj h
      subst hxp
      rw [show updateFirstPlayer c f (x :: rest) = f x :: rest from by
        simp [updateFirstPlayer, hx]]
      have hfx : ((f x).id == c) = true := by rw [hf x]; exact hx
      simp [List.find?_cons, hfx]
    | false =>
      simp only [List.find?_cons, hx] at h
      rw [show updateFirstPlayer c f (x :: rest) = x :: updateFirstPlayer c f rest from by
        simp [updateFirstPlayer, hx]]
      simp only [List.find?_cons, hx]
      exact ih h

theorem recordAnswer_list_spec {c a : Nat} {l : List Session} {s : Session}
    {q : Question} {p : Player}
    (hs : l.find? (fun t => t.players.any (fun r => r.id == c)) = some s)
    (hq : jsIndex s.questions s.currentQuestionIndex = some q)
    (hp : s.players.find? (fun r => r.id == c) = some p) :
    (((recordAnswerInSessions c a l).find?
        (fun t => t.players.any (fun r => r.id == c))).bind
      (fun t => t.players.find? (fun r => r.id == c)))
      = some (recordedPlayer p s.currentQuestionIndex a q) := by
  induction l with
  | nil => simp at hs
  | cons x rest ih =>
    cases hx : x.players.any (fun r => r.id == c) with
    | true =>
      simp only [List.find?_cons, hx] at hs
      have hxs : x = s := Option.some.inj hs
      subst hxs
      rw [show recordAnswerInSessions c a (x :: rest)
          = { x with players := (updateFirstPlayer c
              (fun r => recordedPlayer r x.currentQuestionIndex a q) x.players) } :: rest from by
        simp [recordAnswerInSessions, hx, hq, recordedPlayer]]
      have hupd : ((updateFirstPlayer c
          (fun r => recordedPlayer r x.currentQuestionIndex a q) x.players).any
          (fun r => r.id == c)) = true := by
        rw [@updateFirstPlayer_any c
          (fun r => recordedPlayer r x.currentQuestionIndex a q) (fun _ => rfl) x.players]
        exact hx
      simp only [List.find?_cons, hupd, Option.some_bind]
      exact @updateFirstPlayer_find? c
        (fun r => recordedPlayer r x.currentQuestionIndex a q) (fun _ => rfl) x.players p hp
    | false =>
      simp only [List.find?_cons, hx] at hs
      rw [show recordAnswerInSessions c a (x :: rest)
          = x :: recordAnswerInSessions c a rest from by
        simp [recordAnswerInSessions, hx]]
      simp only [List.find?_cons, hx]
      exact ih hs

/-- C1 (amended): the submitAnswer handler performs NO duplicate check and
NO deadline check.  Whenever the submitting connection is found in a
session whose currentQuestionIndex addresses an existing question, the
handler unconditionally appends one answer entry carrying that index to the
player's answers sequence — regardless of any entries already recorded for
the same questionIndex and regardless of whether the question's deadline
has already fired (the index only advances at the END of the 3 s reveal
pause) — and adds 10 to the player's score exactly when the answer matches
correctOption.  Hence a player's answers sequence can hold several entries
per questionIndex, and duplicate or late submissions do modify score and
answers (see the counterexample). -/
theorem submitAnswer_appends_without_guards (st : ServerState) (c a : Nat)
    (s : Session) (q : Question) (p : Player)
    (hs : st.sessions.find? (fun t => t.players.any (fun r => r.id == c)) = some s)
    (hq : jsIndex s.questions s.currentQuestionIndex = some q)
    (hp : s.players.find? (fun r => r.id == c) = some p) :
    ((((handleSubmitAnswer c a st).sessions.find?
        (fun t => t.players.any (fun r => r.id == c))).bind
      (fun t => t.players.find? (fun r => r.id == c)))
      = some (recordedPlayer p s.currentQuestionIndex a q)) := by
  unfold handleSubmitAnswer
  exact recordAnswer_list_spec hs hq hp

/-- Witness for submitAnswer_appends_without_guards: in the concrete
playing state witnessState, a correct submission to question 0 appends the
entry and lifts the score to 10. -/
theorem submitAnswer_appends_without_guards_witness :
    ((((handleSubmitAnswer 1 2 witnessState).sessions.find?
        (fun t => t.players.any (fun r => r.id == 1))).bind
      (fun t => t.players.find? (fun r => r.id == 1)))
      = some (recordedPlayer witnessPlayer witnessSession.currentQuestionIndex 2 demoQ0)) :=
  submitAnswer_appends_without_guards witnessState 1 2 witnessSession demoQ0 witnessPlayer
    (by decide) (by decide) (by decide)

/-- C1 counterexample: after the reachable trace c1Trace — one player, game
started by lobby timeout, the correct answer 2 submitted twice while
question 0 was open and once more after its deadline fired — the player's
recorded answers sequence holds THREE entries with questionIndex 0 and the
score has risen to 30.  The claim that duplicate or late submissions are
rejected without modifying score or answers is therefore false on the
code. -/
theorem duplicate_and_late_answers_recorded :
    (runTrace c1Trace initialState).sessions.map
      (fun s => s.players.map (fun p => (p.score, p.answers.map (fun a => a.questionIndex))))
      = [[(30, [0, 0, 0])]] := by decide

/-! Reachability invariants: no empty session, unique session ids. -/

theorem handleJoin_state_cases (now : Int) (c : Nat) (n : String) (fid : Nat)
    (qs : List Question) (st : ServerState) :
    (handleJoin now c n fid qs st).1 = st ∨
    (∃ target, st.sessions.find?
        (fun s => s.status == Status.lobby && decide (s.players.length < 4)) = some target ∧
      (handleJoin now c n fid qs st).1 = addPlayerToTarget now c n target st) ∨
    (st.sessions.find?
        (fun s => s.status == Status.lobby && decide (s.players.length < 4)) = none ∧
     canCreateNewSession st = true ∧
     (handleJoin now c n fid qs st).1 = addPlayerToTarget now c n (newSession now fid qs)
        { st with sessions := mapSet st.sessions (newSession now fid qs) }) := by
  cases h1 : st.sessions.any (fun s => s.players.any (fun p => p.id == c)) with
  | true =>
    left
    rw [handleJoin_rejoin now c n fid qs h1]
  | false =>
    cases h2 : (decide (MAX_SESSIONS ≤ st.sessions.length) && !canPlayerJoinExistingSession st) with
    | true =>
      left
      unfold handleJoin
      rw [if_neg (by simp [h1]), if_pos h2]
    | false =>
      cases h3 : st.sessions.find?
          (fun s => s.status == Status.lobby && decide (s.players.length < 4)) with
      | some target =>
        right; left
        refine ⟨target, rfl, ?_⟩
        unfold handleJoin
        rw [if_neg (by simp [h1]), if_neg (by simp [h2]), h3]
      | none =>
        cases h4 : canCreateNewSession st with
        | true =>
          right; right
          refine ⟨rfl, rfl, ?_⟩
          unfold handleJoin
          rw [if_neg (by simp [h1]), if_neg (by simp [h2]), h3, if_pos h4]
        | false =>
          left
          unfold handleJoin
          rw [if_neg (by simp [h1]), if_neg (by simp [h2]), h3, if_neg (by simp [h4])]

theorem map_sid_mapFirstWhere {p : Session → Bool} {f : Session → Session}
    (hf : ∀ s, p s = true → (f s).sid = s.sid) (l : List Session) :
    (mapFirstWhere p f l).map (fun s => s.sid) = l.map (fun s => s.sid) := by
  induction l with
  | nil => rfl
  | cons s rest ih =>
    cases h : p s with
    | true => simp [mapFirstWhere, h, hf s h]
    | false => simp [mapFirstWhere, h, ih]

theorem map_sid_push (pl : Player) (l : List Session) :
    (pushOntoFirstOpenLobby pl l).map (fun s => s.sid) = l.map (fun s => s.sid) := by
  induction l with
  | nil => rfl
  | cons s rest ih =>
    cases h : (s.status == Status.lobby && decide (s.players.length < 4)) <;>
      simp [pushOntoFirstOpenLobby, h, ih]

theorem map_sid_markReady (c : Nat) (l : List Session) :
    ((markReadyInSessions c l).1).map (fun s => s.sid) = l.map (fun s => s.sid) := by
  induction l with
  | nil => rfl
  | cons s rest ih =>
    cases h : s.players.any (fun p => p.id == c) <;>
      simp [markReadyInSessions, h, ih]

theorem map_sid_record (c a : Nat) (l : List Session) :
    (recordAnswerInSessions c a l).map (fun s => s.sid) = l.map (fun s => s.sid) := by
  induction l with
  | nil => rfl
  | cons s rest ih =>
    cases h : s.players.any (fun p => p.id == c) with
    | true =>
      cases hq : jsIndex s.questions s.currentQuestionIndex <;>
        simp [recordAnswerInSessions, h, hq]
    | false => simp [recordAnswerInSessions, h, ih]

theorem map_sid_removeFrom_sublist (c : Nat) (l : List Session) :
    List.Sublist (((removeFromSessions c l).1).map (fun s => s.sid))
      (l.map (fun s => s.sid)) := by
  induction l with
  | nil => simp [removeFromSessions]
  | cons s rest ih =>
    cases h : s.players.any (fun p => p.id == c) with
    | true =>
      simp only [removeFromSessions, h, if_true]
      split
      · exact List.Sublist.cons _ (by simp [List.Sublist.refl])
      · simp
    | false =>
      simp only [removeFromSessions, h, Bool.false_eq_true, if_false]
      simpa using List.Sublist.cons₂ s.sid ih

theorem mem_removeFromSessions_pos {c : Nat} {l : List Session}
    (hinv : ∀ s ∈ l, 0 < s.players.length) :
    ∀ x ∈ (removeFromSessions c l).1, 0 < x.players.length := by
  induction l with
  | nil => intro x hx; simp [removeFromSessions] at hx
  | cons s rest ih =>
    intro x hx
    cases hp : s.players.any (fun p => p.id == c) with
    | true =>
      simp only [removeFromSessions, hp, if_true] at hx
      split at hx
      · exact hinv x (List.mem_cons_of_mem _ hx)
      · case isFalse hne =>
        rcases List.mem_cons.mp hx with rfl | hx2
        · have : (s.players.eraseP (fun p => p.id == c)).length ≠ 0 := by
            simpa using hne
          exact Nat.pos_of_ne_zero this
        · exact hinv x (List.mem_cons_of_mem _ hx2)
    | false =>
      simp only [removeFromSessions, hp, Bool.false_eq_true, if_false] at hx
      rcases List.mem_cons.mp hx with rfl | hx2
      · exact hinv x (by simp)
      · exact ih (fun t ht => hinv t (List.mem_cons_of_mem _ ht)) x hx2

theorem push_replace_NE {l : List Session} {ns : Session} {pl : Player}
    (hinv : ∀ s ∈ l, 0 < s.players.length)
    (hnone : l.find?
      (fun s => s.status == Status.lobby && decide (s.players.length < 4)) = none)
    (hguard : (ns.status == Status.lobby && decide (ns.players.length < 4)) = true) :
    ∀ x ∈ pushOntoFirstOpenLobby pl
      (mapFirstWhere (fun s => s.sid == ns.sid) (fun _ => ns) l),
      0 < x.players.length := by
  induction l with
  | nil => intro x hx; simp [mapFirstWhere, pushOntoFirstOpenLobby] at hx
  | cons y rest ih =>
    intro x hx
    have hy : (y.status == Status.lobby && decide (y.players.length < 4)) = false := by
      cases hg : (y.status == Status.lobby && decide (y.players.length < 4)) with
      | true => simp [List.find?_cons, hg] at hnone
      | false => rfl
    have hrest : rest.find?
        (fun s => s.status == Status.lobby && decide (s.players.length < 4)) = none := by
      simpa [List.find?_cons, hy] using hnone
    cases hp : (y.sid == ns.sid) with
    | true =>
      simp only [mapFirstWhere, hp, if_true] at hx
      simp only [pushOntoFirstOpenLobby, hguard, if_true] at hx
      rcases List.mem_cons.mp hx with rfl | hx2
      · simp
      · exact hinv x (List.mem_cons_of_mem _ hx2)
    | false =>
      simp only [mapFirstWhere, hp, Bool.false_eq_true, if_false] at hx
      simp only [pushOntoFirstOpenLobby, hy, Bool.false_eq_true, if_false] at hx
      rcases List.mem_cons.mp hx with rfl | hx2
      · exact hinv x (by simp)
      · exact ih (fun t ht => hinv t (List.mem_cons_of_mem _ ht)) hrest x hx2

theorem push_append_NE {l : List Session} {ns : Session} {pl : Player}
    (hinv : ∀ s ∈ l, 0 < s.players.length)
    (hnone : l.find?
      (fun s => s.status == Status.lobby && decide (s.players.length < 4)) = none)
    (hguard : (ns.status == Status.lobby && decide (ns.players.length < 4)) = true) :
    ∀ x ∈ pushOntoFirstOpenLobby pl (l ++ [ns]), 0 < x.players.length := by
  induction l with
  | nil =>
    intro x hx
    simp only [List.nil_append] at hx
    simp only [pushOntoFirstOpenLobby, hguard, if_true] at hx
    rcases List.mem_cons.mp hx with rfl | hx2
    · simp
    · simp at hx2
  | cons y rest ih =>
    intro x hx
    have hy : (y.status == Status.lobby && decide (y.players.length < 4)) = false := by
      cases hg : (y.status == Status.lobby && decide (y.players.length < 4)) with
      | true => simp [List.find?_cons, hg] at hnone
      | false => rfl
    have hrest : rest.find?
        (fun s => s.status == Status.lobby && decide (s.players.length < 4)) = none := by
      simpa [List.find?_cons, hy] using hnone
    simp only [List.cons_append] at hx
    simp only [pushOntoFirstOpenLobby, hy, Bool.false_eq_true, if_false] at hx
    rcases List.mem_cons.mp hx with rfl | hx2
    · exact hinv x (by simp)
    · exact ih (fun t ht => hinv t (List.mem_cons_of_mem _ ht)) hrest x hx2

theorem nodup_mapSet {l : List Session} {ns : Session}
    (h : (l.map (fun s => s.sid)).Nodup) :
    ((mapSet l ns).map (fun s => s.sid)).Nodup := by
  unfold mapSet
  split
  case isTrue hany =>
    rw [map_sid_mapFirstWhere (fun s hs => by simpa using (beq_iff_eq.mp hs).symm) l]
    exact h
  case isFalse hany =>
    have hnot : ns.sid ∉ l.map (fun s => s.sid) := by
      intro hmem
      rcases List.mem_map.mp hmem with ⟨s, hs, hsid⟩
      have : l.any (fun s => s.sid == ns.sid) = true :=
        List.any_eq_true.mpr ⟨s, hs, by simp [hsid]⟩
      exact hany this
    simp [List.nodup_append, h, hnot]

theorem GInv_clearTimer {st : ServerState} {sid : Nat} {k : TimerKind}
    (h : NoEmptySessions st ∧ UniqueSids st) :
    NoEmptySessions (clearTimer st sid k) ∧ UniqueSids (clearTimer st sid k) := h

theorem GInv_setTimer {st : ServerState} {sid : Nat} {k : TimerKind}
    (h : NoEmptySessions st ∧ UniqueSids st) :
    NoEmptySessions (setTimer st sid k) ∧ UniqueSids (setTimer st sid k) := h

theorem GInv_mapFirstWhere_state {st : ServerState} {p : Session → Bool}
    {f : Session → Session}
    (hsid : ∀ s, p s = true → (f s).sid = s.sid)
    (hlen : ∀ s, (f s).players.length = s.players.length)
    (h : NoEmptySessions st ∧ UniqueSids st) :
    NoEmptySessions { st with sessions := mapFirstWhere p f st.sessions } ∧
    UniqueSids { st with sessions := mapFirstWhere p f st.sessions } := by
  obtain ⟨h1, h2⟩ := h
  constructor
  · intro s hs
    simp only at hs
    rcases mem_mapFirstWhere hs with hm | ⟨t, ht, htp, rfl⟩
    · exact h1 s hm
    · rw [hlen t]
      exact h1 t ht
  · unfold UniqueSids
    simp only
    rw [map_sid_mapFirstWhere hsid]
    exact h2

theorem GInv_updateSession {st : ServerState} {sid : Nat} {f : Session → Session}
    (hsid : ∀ s, (f s).sid = s.sid)
    (hlen : ∀ s, (f s).players.length = s.players.length)
    (h : NoEmptySessions st ∧ UniqueSids st) :
    NoEmptySessions (updateSession st sid f) ∧ UniqueSids (updateSession st sid f) :=
  GInv_mapFirstWhere_state (fun s _ => hsid s) hlen h

theorem GInv_startLobbyTimer {st : ServerState} (now : Int) (sid : Nat)
    (h : NoEmptySessions st ∧ UniqueSids st) :
    NoEmptySessions (startLobbyTimer now sid st) ∧ UniqueSids (startLobbyTimer now sid st) := by
  unfold startLobbyTimer
  cases getSession st sid with
  | none => exact h
  | some s =>
    exact GInv_setTimer (GInv_clearTimer (GInv_setTimer
      (GInv_updateSession (fun _ => rfl) (fun _ => rfl) (GInv_clearTimer h))))

theorem GInv_endGame {st : ServerState} (sid : Nat)
    (h : NoEmptySessions st ∧ UniqueSids st) :
    NoEmptySessions (endGame sid st) ∧ UniqueSids (endGame sid st) := by
  unfold endGame
  cases getSession st sid with
  | none => exact h
  | some s => exact GInv_setTimer (GInv_updateSession (fun _ => rfl) (fun _ => rfl) h)

theorem GInv_nextQuestion {st : ServerState} (sid : Nat)
    (h : NoEmptySessions st ∧ UniqueSids st) :
    NoEmptySessions (nextQuestion sid st) ∧ UniqueSids (nextQuestion sid st) := by
  unfold nextQuestion
  cases getSession st sid with
  | none => exact h
  | some s =>
    dsimp only
    split
    · exact GInv_endGame _ (GInv_updateSession (fun _ => rfl) (fun _ => rfl) h)
    · exact GInv_setTimer (GInv_clearTimer (GInv_setTimer
        (GInv_clearTimer (GInv_updateSession (fun _ => rfl) (fun _ => rfl) h))))

theorem GInv_startGame {st : ServerState} (sid : Nat)
    (h : NoEmptySessions st ∧ UniqueSids st) :
    NoEmptySessions (startGame sid st) ∧ UniqueSids (startGame sid st) := by
  unfold startGame
  cases getSession st sid with
  | none => exact h
  | some s =>
    exact GInv_nextQuestion _
      (GInv_updateSession (fun _ => rfl) (fun _ => rfl) (GInv_clearTimer h))

theorem GInv_push {st : ServerState} {pl : Player}
    (h : NoEmptySessions st ∧ UniqueSids st) :
    NoEmptySessions { st with sessions := pushOntoFirstOpenLobby pl st.sessions } ∧
    UniqueSids { st with sessions := pushOntoFirstOpenLobby pl st.sessions } := by
  obtain ⟨h1, h2⟩ := h
  constructor
  · intro s hs
    simp only at hs
    rcases mem_pushOntoFirstOpenLobby hs with hm | ⟨t, ht, hlt, rfl⟩
    · exact h1 s hm
    · simp
  · unfold UniqueSids
    simp only
    rw [map_sid_push]
    exact h2

theorem GInv_addPlayerToTarget {st : ServerState} (now : Int) (c : Nat)
    (n : String) (target : Session)
    (h : NoEmptySessions st ∧ UniqueSids st) :
    NoEmptySessions (addPlayerToTarget now c n target st) ∧
    UniqueSids (addPlayerToTarget now c n target st) := by
  unfold addPlayerToTarget
  dsimp only
  split
  · exact GInv_startLobbyTimer _ _ (GInv_push h)
  · exact GInv_push h

theorem GInv_addPlayerToTarget_create {st : ServerState} (now : Int) (c : Nat)
    (n : String) (ns : Session)
    (h : NoEmptySessions st ∧ UniqueSids st)
    (hnone : st.sessions.find?
      (fun s => s.status == Status.lobby && decide (s.players.length < 4)) = none)
    (hguard : (ns.status == Status.lobby && decide (ns.players.length < 4)) = true) :
    NoEmptySessions (addPlayerToTarget now c n ns
      { st with sessions := mapSet st.sessions ns }) ∧
    UniqueSids (addPlayerToTarget now c n ns
      { st with sessions := mapSet st.sessions ns }) := by
  obtain ⟨h1, h2⟩ := h
  have hinner : NoEmptySessions { st with sessions := (pushOntoFirstOpenLobby { id := c, name := n, score := 0, answers := [], isReady := false, isHost := ns.players.length == 0 } (mapSet st.sessions ns)) } ∧
      UniqueSids { st with sessions := (pushOntoFirstOpenLobby { id := c, name := n, score := 0, answers := [], isReady := false, isHost := ns.players.length == 0 } (mapSet st.sessions ns)) } := by
    constructor
    · intro s hs
      simp only at hs
      revert s hs
      show ∀ s ∈ pushOntoFirstOpenLobby _ (mapSet st.sessions ns), 0 < s.players.length
      unfold mapSet
      split
      · exact push_replace_NE h1 hnone hguard
      · exact push_append_NE h1 hnone hguard
    · unfold UniqueSids
      simp only
      rw [map_sid_push]
      exact nodup_mapSet h2
  unfold addPlayerToTarget
  dsimp only
  split
  · exact GInv_startLobbyTimer _ _ hinner
  · exact hinner

theorem GInv_handleJoin {st : ServerState} (now : Int) (c : Nat) (n : String)
    (fid : Nat) (qs : List Question)
    (h : NoEmptySessions st ∧ UniqueSids st) :
    NoEmptySessions (handleJoin now c n fid qs st).1 ∧
    UniqueSids (handleJoin now c n fid qs st).1 := by
  rcases handleJoin_state_cases now c n fid qs st with
    heq | ⟨target, hfind, heq⟩ | ⟨hnone, hcan, heq⟩ <;> rw [heq]
  · exact h
  · exact GInv_addPlayerToTarget _ _ _ _ h
  · exact GInv_addPlayerToTarget_create _ _ _ _ h hnone (by simp [newSession])

theorem GInv_handleReady {st : ServerState} (c : Nat)
    (h : NoEmptySessions st ∧ UniqueSids st) :
    NoEmptySessions (handleReady c st) ∧ UniqueSids (handleReady c st) := by
  have hbase : NoEmptySessions { st with sessions := (markReadyInSessions c st.sessions).1 } ∧
      UniqueSids { st with sessions := (markReadyInSessions c st.sessions).1 } := by
    obtain ⟨h1, h2⟩ := h
    constructor
    · intro s hs
      rcases mem_markReadyInSessions hs with ⟨t, ht, hl⟩
      rw [hl]
      exact h1 t ht
    · unfold UniqueSids
      simp only
      rw [map_sid_markReady]
      exact h2
  unfold handleReady
  dsimp only
  cases hr : (markReadyInSessions c st.sessions).2 with
  | none => simp only [hr]; exact hbase
  | some sid => simp only [hr]; exact GInv_startGame _ hbase

theorem GInv_handleSubmitAnswer {st : ServerState} (c a : Nat)
    (h : NoEmptySessions st ∧ UniqueSids st) :
    NoEmptySessions (handleSubmitAnswer c a st) ∧
    UniqueSids (handleSubmitAnswer c a st) := by
  obtain ⟨h1, h2⟩ := h
  constructor
  · intro s hs
    simp only [handleSubmitAnswer] at hs
    rcases mem_recordAnswerInSessions hs with ⟨t, ht, hl⟩
    rw [hl]
    exact h1 t ht
  · unfold UniqueSids
    simp only [handleSubmitAnswer]
    rw [map_sid_record]
    exact h2

theorem GInv_handleStartGameReq {st : ServerState} (c : Nat)
    (h : NoEmptySessions st ∧ UniqueSids st) :
    NoEmptySessions (handleStartGameReq c st) ∧ UniqueSids (handleStartGameReq c st) := by
  unfold handleStartGameReq
  cases findHostSession c st.sessions with
  | none => exact h
  | some sid => exact GInv_startGame _ h

theorem GInv_handleDisconnectRemove {st : ServerState} (c : Nat)
    (h : NoEmptySessions st ∧ UniqueSids st) :
    NoEmptySessions (handleDisconnectRemove c st) ∧
    UniqueSids (handleDisconnectRemove c st) := by
  obtain ⟨h1, h2⟩ := h
  have hbase : NoEmptySessions { st with sessions := (removeFromSessions c st.sessions).1 } ∧
      UniqueSids { st with sessions := (removeFromSessions c st.sessions).1 } := by
    constructor
    · intro s hs
      exact mem_removeFromSessions_pos h1 s hs
    · unfold UniqueSids
      simp only
      exact List.Nodup.sublist (map_sid_removeFrom_sublist c st.sessions) h2
  unfold handleDisconnectRemove
  dsimp only
  cases hr : (removeFromSessions c st.sessions).2 with
  | none => simp only [hr]; exact hbase
  | some sid => simp only [hr]; exact GInv_clearTimer hbase

theorem GInv_fireLobbyTimeout {st : ServerState} (sid : Nat)
    (h : NoEmptySessions st ∧ UniqueSids st) :
    NoEmptySessions (fireLobbyTimeout sid st) ∧ UniqueSids (fireLobbyTimeout sid st) := by
  unfold fireLobbyTimeout
  split
  · dsimp only
    cases getSession (clearTimer st sid TimerKind.lobbyTimeout) sid with
    | none => exact GInv_clearTimer h
    | some s =>
      dsimp only
      split
      · exact GInv_startGame _ (GInv_clearTimer h)
      · exact GInv_clearTimer h
  · exact h

theorem GInv_fireQuestionDeadline {st : ServerState} (sid : Nat)
    (h : NoEmptySessions st ∧ UniqueSids st) :
    NoEmptySessions (fireQuestionDeadline sid st) ∧
    UniqueSids (fireQuestionDeadline sid st) := by
  unfold fireQuestionDeadline
  split
  · exact GInv_setTimer (GInv_clearTimer (GInv_clearTimer h))
  · exact h

theorem GInv_fireRevealPause {st : ServerState} (sid : Nat)
    (h : NoEmptySessions st ∧ UniqueSids st) :
    NoEmptySessions (fireRevealPause sid st) ∧ UniqueSids (fireRevealPause sid st) := by
  unfold fireRevealPause
  split
  · exact GInv_nextQuestion _ (GInv_clearTimer h)
  · exact h

theorem GInv_fireResultsGrace {st : ServerState} (sid : Nat)
    (h : NoEmptySessions st ∧ UniqueSids st) :
    NoEmptySessions (fireResultsGrace sid st) ∧ UniqueSids (fireResultsGrace sid st) := by
  obtain ⟨h1, h2⟩ := h
  unfold fireResultsGrace
  split
  · constructor
    · intro s hs
      exact h1 s ((List.eraseP_sublist _).subset hs)
    · unfold UniqueSids
      simp only
      exact List.Nodup.sublist (List.Sublist.map _ (List.eraseP_sublist _)) h2
  · exact ⟨h1, h2⟩

theorem GInv_step {st : ServerState} (now : Int) (e : Event)
    (h : NoEmptySessions st ∧ UniqueSids st) :
    NoEmptySessions (step now e st) ∧ UniqueSids (step now e st) := by
  cases e with
  | join c n fid qs => exact GInv_handleJoin now c n fid qs h
  | ready c => exact GInv_handleReady c h
  | submitAnswer c a => exact GInv_handleSubmitAnswer c a h
  | startGameReq c => exact GInv_handleStartGameReq c h
  | disconnectRemove c => exact GInv_handleDisconnectRemove c h
  | lobbyExpire sid => exact GInv_fireLobbyTimeout sid h
  | questionDeadline sid => exact GInv_fireQuestionDeadline sid h
  | revealAdvance sid => exact GInv_fireRevealPause sid h
  | resultsCleanup sid => exact GInv_fireResultsGrace sid h

theorem GInv_runTrace {st : ServerState} (tr : List (Int × Event))
    (h : NoEmptySessions st ∧ UniqueSids st) :
    NoEmptySessions (runTrace tr st) ∧ UniqueSids (runTrace tr st) := by
  induction tr generalizing st with
  | nil => exact h
  | cons te rest ih => exact ih (GInv_step te.1 te.2 h)

/-! The ready path of a lone player, and the startGame force-start. -/

theorem markReady_statuses {c : Nat} {l : List Session} {s : Session}
    (hfind : l.find? (fun t => t.players.any (fun p => p.id == c)) = some s)
    (hone : s.players.length = 1) :
    (markReadyInSessions c l).1.map Session.status = l.map Session.status ∧
    (markReadyInSessions c l).2 = none := by
  induction l with
  | nil => simp at hfind
  | cons x rest ih =>
    cases hx : x.players.any (fun p => p.id == c) with
    | true =>
      simp only [List.find?_cons, hx] at hfind
      have hxs : x = s := Option.some.inj hfind
      subst hxs
      have hlen : (updateFirstPlayer c (fun p => { p with isReady := true }) x.players).length
          = 1 := by
        rw [length_updateFirstPlayer]
        exact hone
      constructor
      · simp [markReadyInSessions, hx]
      · simp [markReadyInSessions, hx, hlen]
    | false =>
      simp only [List.find?_cons, hx] at hfind
      rcases ih hfind with ⟨h1, h2⟩
      constructor
      · simp [markReadyInSessions, hx, h1]
      · simp [markReadyInSessions, hx, h2]

theorem handleReady_statuses {st : ServerState} {c : Nat} {s : Session}
    (hfind : st.sessions.find? (fun t => t.players.any (fun p => p.id == c)) = some s)
    (hone : s.players.length = 1) :
    (handleReady c st).sessions.map Session.status
      = st.sessions.map Session.status := by
  rcases markReady_statuses hfind hone with ⟨h1, h2⟩
  unfold handleReady
  dsimp only
  rw [h2]
  exact h1

theorem recordAnswer_statuses (c a : Nat) (l : List Session) :
    (recordAnswerInSessions c a l).map Session.status = l.map Session.status := by
  induction l with
  | nil => rfl
  | cons s rest ih =>
    cases hx : s.players.any (fun p => p.id == c) with
    | true =>
      cases hq : jsIndex s.questions s.currentQuestionIndex <;>
        simp [recordAnswerInSessions, hx, hq]
    | false => simp [recordAnswerInSessions, hx, ih]

theorem handleSubmitAnswer_statuses (c a : Nat) (st : ServerState) :
    (handleSubmitAnswer c a st).sessions.map Session.status
      = st.sessions.map Session.status := by
  unfold handleSubmitAnswer
  exact recordAnswer_statuses c a st.sessions

/-- C4 (amended): a session holding exactly one player never transitions
out of its status — in particular never from lobby to playing — through a
ready event (the early-start path of line 725 requires more than one
player), a submitAnswer event (which never touches status), or a duplicate
join (a no-op); the amendment is that the claim cannot extend to ALL events
the lone player can send: that player is the host, and a startGame request
from the host starts the game at once, before the lobby countdown fires
(see the counterexample). -/
theorem lone_player_client_events_keep_statuses (st : ServerState) (now : Int)
    (c a : Nat) (n : String) (fid : Nat) (qs : List Question) (s : Session)
    (hfind : st.sessions.find? (fun t => t.players.any (fun p => p.id == c)) = some s)
    (hone : s.players.length = 1) :
    ((handleReady c st).sessions.map Session.status
       = st.sessions.map Session.status) ∧
    ((handleSubmitAnswer c a st).sessions.map Session.status
       = st.sessions.map Session.status) ∧
    ((handleJoin now c n fid qs st).1 = st) := by
  refine ⟨handleReady_statuses hfind hone, handleSubmitAnswer_statuses c a st, ?_⟩
  rw [handleJoin_rejoin now c n fid qs (any_of_find?_eq_some hfind)]

/-- Witness for lone_player_client_events_keep_statuses, at the concrete
single-player lobby soloLobbyState. -/
theorem lone_player_client_events_keep_statuses_witness :
    ((handleReady 5 soloLobbyState).sessions.map Session.status
       = soloLobbyState.sessions.map Session.status) ∧
    ((handleSubmitAnswer 5 0 soloLobbyState).sessions.map Session.status
       = soloLobbyState.sessions.map Session.status) ∧
    ((handleJoin 1000 5 "solo" 2 demoQuestions soloLobbyState).1 = soloLobbyState) :=
  lone_player_client_events_keep_statuses soloLobbyState 1000 5 0 "solo" 2
    demoQuestions soloSession (by decide) (by decide)

/-- C4 counterexample: in the single-player lobby soloLobbyState, 2 seconds
after creation (no timer event has fired), the lone player — who is the
host — sends the startGame client event and the session transitions to
playing immediately: the lobby-timer floor does not hold against every
event a lone player can send. -/
theorem lone_host_startGame_begins_early :
    soloLobbyState.sessions.map Session.status = [Status.lobby] ∧
    soloLobbyState.sessions.map (fun s => s.players.length) = [1] ∧
    (step 2000 (Event.startGameReq 5) soloLobbyState).sessions.map Session.status
      = [Status.playing] :=
  ⟨by decide, by decide, by decide⟩

/-! Cleanup on last-player removal. -/

theorem removeFrom_deletes {c : Nat} {l : List Session} {s : Session}
    (hfind : l.find? (fun t => t.players.any (fun p => p.id == c)) = some s)
    (hempty : (s.players.eraseP (fun p => p.id == c)).length = 0)
    (hnodup : (l.map (fun t => t.sid)).Nodup) :
    ((removeFromSessions c l).1.all (fun t => !(t.sid == s.sid)) = true) ∧
    (removeFromSessions c l).2 = some s.sid := by
  induction l with
  | nil => simp at hfind
  | cons x rest ih =>
    cases hx : x.players.any (fun p => p.id == c) with
    | true =>
      simp only [List.find?_cons, hx] at hfind
      have hxs : x = s := Option.some.inj hfind
      subst hxs
      have hnp : ((x.players.eraseP (fun p => p.id == c)).length == 0) = true := by
        simp [hempty]
      have hnotin : x.sid ∉ rest.map (fun t => t.sid) :=
        (List.nodup_cons.mp (by simpa using hnodup)).1
      constructor
      · simp only [removeFromSessions, hx, if_true, hnp]
        rw [List.all_eq_true]
        intro t ht
        have : t.sid ≠ x.sid := by
          intro heq
          exact hnotin (heq ▸ List.mem_map.mpr ⟨t, ht, rfl⟩)
        simpa using this
      · simp [removeFromSessions, hx, hnp]
    | false =>
      simp only [List.find?_cons, hx] at hfind
      have hnodup2 : (rest.map (fun t => t.sid)).Nodup :=
        (List.nodup_cons.mp (by simpa using hnodup)).2
      rcases ih hfind hnodup2 with ⟨ha, hb⟩
      have hxs_ne : (x.sid == s.sid) = false := by
        have hsmem := List.mem_of_find?_eq_some hfind
        have hnotin : x.sid ∉ rest.map (fun t => t.sid) :=
          (List.nodup_cons.mp (by simpa using hnodup)).1
        have : x.sid ≠ s.sid := by
          intro heq
          exact hnotin (heq ▸ List.mem_map.mpr ⟨s, hsmem, rfl⟩)
        simpa using this
      constructor
      · simp [removeFromSessions, hx, ha, hxs_ne]
      · simp [removeFromSessions, hx, hb]

theorem clearTimer_not_mem (st : ServerState) (sid : Nat) (k : TimerKind) :
    (sid, k) ∉ (clearTimer st sid k).timers := by
  intro hmem
  unfold clearTimer at hmem
  simp only at hmem
  rcases List.mem_filter.mp hmem with ⟨hm, hp⟩
  simp at hp

/-- C5 (amended): (i) in every reachable state no session is empty — so
removing the last player does delete the session at once — and (ii)
session ids are unique in every reachable registry, and (iii) when the
disconnect removal empties the session it found, that session's id is gone
from the registry in the same step and its lobby-countdown timeout handle
is cleared.  The amendment is that ONLY the lobby timeout is cleared
(line 548-550): the lobby tick interval, the question tick interval, the
question deadline and the reveal pause are not cancelled, and a pending
question deadline of the deleted session still fires later (see the
counterexample); its callback, however, finds no session and leaves the
registry unchanged. -/
theorem cleanup_amended :
    (∀ tr, ∀ s ∈ (runTrace tr initialState).sessions, 0 < s.players.length) ∧
    (∀ tr, UniqueSids (runTrace tr initialState)) ∧
    (∀ (st : ServerState) (c : Nat) (s : Session),
      UniqueSids st →
      st.sessions.find? (fun t => t.players.any (fun p => p.id == c)) = some s →
      (s.players.eraseP (fun p => p.id == c)).length = 0 →
      ((handleDisconnectRemove c st).sessions.all (fun t => !(t.sid == s.sid)) = true ∧
       (s.sid, TimerKind.lobbyTimeout) ∉ (handleDisconnectRemove c st).timers)) := by
  have hinit : NoEmptySessions initialState ∧ UniqueSids initialState := by
    constructor
    · intro s hs
      simp [initialState] at hs
    · simp [initialState, UniqueSids]
  refine ⟨?_, ?_, ?_⟩
  · intro tr
    exact (GInv_runTrace tr hinit).1
  · intro tr
    exact (GInv_runTrace tr hinit).2
  · intro st c s hnodup hfind hempty
    rcases removeFrom_deletes hfind hempty hnodup with ⟨ha, hb⟩
    unfold handleDisconnectRemove
    dsimp only
    rw [hb]
    exact ⟨ha, clearTimer_not_mem _ _ _⟩

/-- Witness for cleanup_amended: its third conjunct instantiated at the
single-player lobby soloLobbyState. -/
theorem cleanup_amended_witness :
    ((handleDisconnectRemove 5 soloLobbyState).sessions.all
       (fun t => !(t.sid == soloSession.sid)) = true ∧
     (soloSession.sid, TimerKind.lobbyTimeout)
       ∉ (handleDisconnectRemove 5 soloLobbyState).timers) :=
  cleanup_amended.2.2 soloLobbyState 5 soloSession
    (show (soloLobbyState.sessions.map (fun s => s.sid)).Nodup by decide)
    (by decide) (by decide)

/-- C5 counterexample: after c5Trace — a lone player joins, the game starts
(arming the question tick and deadline timers), and the player's disconnect
removal deletes the now-empty session — the registry is empty, but the
deleted session's question deadline and question tick timers are still
pending, and the deadline can still fire afterwards (scheduling the reveal
pause): the claim that ALL of the session's timers are cancelled in the
same step, so that no timer of a deleted session can later fire, is false
on the code. -/
theorem last_player_removal_leaves_live_timers :
    (runTrace c5Trace initialState).sessions = [] ∧
    (1, TimerKind.questionDeadline) ∈ (runTrace c5Trace initialState).timers ∧
    (1, TimerKind.questionTick) ∈ (runTrace c5Trace initialState).timers ∧
    (1, TimerKind.revealPause)
      ∈ (fireQuestionDeadline 1 (runTrace c5Trace initialState)).timers :=
  ⟨by decide, by decide, by decide, by decide⟩

/-! Withholding of the correct option. -/

/-- C8 (code bug): the question event payload built by questionForPlayers
does withhold correctOption — the payload is literally independent of it —
but the full gameState snapshot sent on an idempotent-join re-delivery
(line 616) and on a player-count change (line 556) embeds the RAW question
record: in a reachable playing state its currentQuestion field still
carries correctOption (value 2 here) while the question is open, so the
correct index reaches clients before question-ended. -/
theorem gameState_snapshot_contains_correct_option :
    (∀ (q : Question) (c2 : Nat),
      questionForPlayers { q with correctOption := c2 } = questionForPlayers q) ∧
    ((runTrace [(0, Event.join 7 "p" 1 demoQuestions), (15000, Event.lobbyExpire 1)]
        initialState).sessions.map
      (fun s => (gameStateCurrentQuestion s).map Question.correctOption)) = [some 2] := by
  constructor
  · intro q c2
    rfl
  · decide

/-! The adaptive question timer policy. -/

theorem adaptiveTimer_bounds (L : ℚ) :
    10 ≤ adaptiveTimerOfLatency L ∧ adaptiveTimerOfLatency L ≤ 20 := by
  unfold adaptiveTimerOfLatency MIN_QUESTION_TIMER MAX_QUESTION_TIMER
  split
  · constructor <;> norm_num
  · split
    · constructor <;> norm_num
    · case isFalse h1 h2 =>
      push_neg at h1 h2
      constructor
      · have h10 : (10 : Int) ≤ jsRound (10 + ((L - 100) / 400) * (20 - 10)) := by
          unfold jsRound
          apply Int.le_floor.mpr
          push_cast
          nlinarith
        exact_mod_cast h10
      · have h20 : jsRound (10 + ((L - 100) / 400) * (20 - 10)) ≤ 20 := by
          unfold jsRound
          have hstep : ((10 + ((L - 100) / 400) * (20 - 10)) + 1 / 2 : ℚ)
              < ((21 : Int) : ℚ) := by
            push_cast
            nlinarith
          have := Int.floor_lt.mpr hstep
          omega
        exact_mod_cast h20

theorem adaptiveTimer_mono {L M : ℚ} (h : L ≤ M) :
    adaptiveTimerOfLatency L ≤ adaptiveTimerOfLatency M := by
  by_cases hL1 : L ≤ 100
  · have e : adaptiveTimerOfLatency L = 10 := by
      unfold adaptiveTimerOfLatency MIN_QUESTION_TIMER
      rw [if_pos hL1]
    rw [e]
    exact (adaptiveTimer_bounds M).1
  · by_cases hM5 : (500 : ℚ) ≤ M
    · have e : adaptiveTimerOfLatency M = 20 := by
        unfold adaptiveTimerOfLatency MIN_QUESTION_TIMER MAX_QUESTION_TIMER
        rw [if_neg (by push_neg at hL1; intro hc; linarith), if_pos hM5]
      rw [e]
      exact (adaptiveTimer_bounds L).2
    · push_neg at hL1 hM5
      have hL5 : L < 500 := lt_of_le_of_lt h hM5
      have hM1 : (100 : ℚ) < M := lt_of_lt_of_le hL1 h
      have eL : adaptiveTimerOfLatency L
          = ((jsRound (10 + ((L - 100) / 400) * (20 - 10)) : Int) : ℚ) := by
        unfold adaptiveTimerOfLatency MIN_QUESTION_TIMER MAX_QUESTION_TIMER
        rw [if_neg (by linarith), if_neg (by intro hc; linarith)]
      have eM : adaptiveTimerOfLatency M
          = ((jsRound (10 + ((M - 100) / 400) * (20 - 10)) : Int) : ℚ) := by
        unfold adaptiveTimerOfLatency MIN_QUESTION_TIMER MAX_QUESTION_TIMER
        rw [if_neg (by linarith), if_neg (by intro hc; linarith)]
      rw [eL, eM]
      have hfl : jsRound (10 + ((L - 100) / 400) * (20 - 10))
          ≤ jsRound (10 + ((M - 100) / 400) * (20 - 10)) := by
        unfold jsRound
        apply Int.floor_le_floor
        linarith
      exact_mod_cast hfl

/-- C9: the adaptive per-question time limit on average latency L ≥ 0
equals MIN_QUESTION_TIMER = 10 seconds for L ≤ 100 ms, MAX_QUESTION_TIMER
= 20 seconds for L ≥ 500 ms, and otherwise 10 + ((L - 100) / 400) × 10
rounded to the nearest second (Math.round, i.e. floor of the value plus
one half); the mapping is monotone non-decreasing and its result always
lies in [10, 20]; and for a session with at least one player the handler's
value is exactly this policy applied to the players' mean latency. -/
theorem adaptive_timer_policy (L : ℚ) (hL : 0 ≤ L) :
    (L ≤ 100 → adaptiveTimerOfLatency L = 10) ∧
    ((500 : ℚ) ≤ L → adaptiveTimerOfLatency L = 20) ∧
    ((100 : ℚ) < L → L < 500 →
      adaptiveTimerOfLatency L = ((jsRound (10 + ((L - 100) / 400) * 10) : Int) : ℚ)) ∧
    (10 ≤ adaptiveTimerOfLatency L ∧ adaptiveTimerOfLatency L ≤ 20) ∧
    (∀ M, L ≤ M → adaptiveTimerOfLatency L ≤ adaptiveTimerOfLatency M) ∧
    (∀ latencies : List ℚ, latencies ≠ [] →
      (latencies.foldl (fun a b => a + b) 0) / (latencies.length : ℚ) = L →
      calculateAdaptiveTimer latencies = adaptiveTimerOfLatency L) := by
  refine ⟨?_, ?_, ?_, adaptiveTimer_bounds L, fun M hM => adaptiveTimer_mono hM, ?_⟩
  · intro hle
    unfold adaptiveTimerOfLatency MIN_QUESTION_TIMER
    rw [if_pos hle]
  · intro hge
    unfold adaptiveTimerOfLatency MIN_QUESTION_TIMER MAX_QUESTION_TIMER
    rw [if_neg (by intro hc; linarith), if_pos hge]
  · intro hlo hhi
    unfold adaptiveTimerOfLatency MIN_QUESTION_TIMER MAX_QUESTION_TIMER
    rw [if_neg (by intro hc; linarith), if_neg (by intro hc; linarith)]
    norm_num
  · intro latencies _ havg
    unfold calculateAdaptiveTimer
    rw [havg]

/-- Witness for adaptive_timer_policy: the bounds instantiated at the
concrete mid-range latency 300 ms. -/
theorem adaptive_timer_policy_witness :
    10 ≤ adaptiveTimerOfLatency 300 ∧ adaptiveTimerOfLatency 300 ≤ 20 :=
  (adaptive_timer_policy 300 (by norm_num)).2.2.2.1

/-! Ranking: the single forEach pass implements standard competition
ranking on the score-sorted list. -/

theorem rankPass_map_score (l : List PResult) :
    ∀ (cr : Nat) (pv : Int) (pw : Nat),
      (rankPass l cr pv pw).map PResult.score = l.map PResult.score := by
  induction l with
  | nil => intro cr pv pw; rfl
  | cons p rest ih =>
    intro cr pv pw
    simp [rankPass, ih]

theorem rankPass_map_strip (l : List PResult) :
    ∀ (cr : Nat) (pv : Int) (pw : Nat),
      (rankPass l cr pv pw).map stripRank = l.map stripRank := by
  induction l with
  | nil => intro cr pv pw; rfl
  | cons p rest ih =>
    intro cr pv pw
    simp [rankPass, ih, stripRank]

theorem rankPass_score_mem {l : List PResult} {cr : Nat} {pv : Int} {pw : Nat}
    {r : PResult} (hr : r ∈ rankPass l cr pv pw) :
    r.score ∈ l.map PResult.score := by
  have := List.mem_map_of_mem PResult.score hr
  rwa [rankPass_map_score] at this

theorem countP_gt_eq_zero {p : PResult} {rest : List PResult}
    (hrest_le : ∀ x ∈ rest, x.score ≤ p.score) :
    (p :: rest).countP (fun x => decide (p.score < x.score)) = 0 := by
  rw [List.countP_eq_zero]
  intro x hx
  rcases List.mem_cons.mp hx with rfl | hx2
  · simp
  · simp only [decide_eq_true_eq]
    exact not_lt.mpr (hrest_le x hx2)

theorem rankPass_rank_spec (l : List PResult) :
    ∀ (prev g e : Nat),
      List.Pairwise (fun a b => b.score ≤ a.score) l →
      (∀ x ∈ l, x.score ≤ prev) →
      ∀ r ∈ rankPass l (1 + g) (prev : Int) e,
        r.rank = 1 + g + (if r.score = prev then 0 else e)
          + l.countP (fun x => decide (r.score < x.score)) := by
  induction l with
  | nil =>
    intro prev g e _ _ r hr
    simp [rankPass] at hr
  | cons p rest ih =>
    intro prev g e hpair hle r hr
    have hple : p.score ≤ prev := hle p (by simp)
    have hrest_le : ∀ x ∈ rest, x.score ≤ p.score := (List.pairwise_cons.mp hpair).1
    have hrest_pair := (List.pairwise_cons.mp hpair).2
    by_cases heq : p.score = prev
    · have hlt : ¬((p.score : Int) < (prev : Int)) := by
        rw [not_lt]
        exact_mod_cast le_of_eq heq.symm
      have heqI : ((p.score : Int) = (prev : Int)) := by exact_mod_cast heq
      rw [show rankPass (p :: rest) (1 + g) (prev : Int) e
          = { p with rank := 1 + g } :: rankPass rest (1 + g) (p.score : Int) (e + 1)
          from by simp [rankPass, hlt, heqI]] at hr
      rcases List.mem_cons.mp hr with rfl | hr2
      · have hc0 := countP_gt_eq_zero hrest_le
        simp only [heq]
        simp [hc0, heq]
        intro a ha
        exact heq ▸ hrest_le a ha
      · have hspec := ih p.score g (e + 1) hrest_pair hrest_le r hr2
        rw [hspec]
        have hrsc : r.score ≤ p.score := by
          rcases List.mem_map.mp (rankPass_score_mem hr2) with ⟨x, hx, hxs⟩
          rw [← hxs]
          exact hrest_le x hx
        by_cases hreq : r.score = p.score
        · rw [if_pos hreq, if_pos (hreq.trans heq)]
          have hnlt : ¬(r.score < p.score) := by rw [hreq]; exact lt_irrefl _
          simp [List.countP_cons, hnlt]
        · rw [if_neg hreq, if_neg (fun hc => hreq (hc.trans heq.symm))]
          have hlt2 : r.score < p.score := lt_of_le_of_ne hrsc hreq
          simp [List.countP_cons, hlt2]
          omega
    · have hltN : p.score < prev := lt_of_le_of_ne hple heq
      have hltI : ((p.score : Int) < (prev : Int)) := by exact_mod_cast hltN
      rw [show rankPass (p :: rest) (1 + g) (prev : Int) e
          = { p with rank := 1 + (g + e) } :: rankPass rest (1 + (g + e)) (p.score : Int) 1
          from by simp [rankPass, hltI, Nat.add_assoc]] at hr
      rcases List.mem_cons.mp hr with rfl | hr2
      · have hc0 := countP_gt_eq_zero hrest_le
        simp only [heq]
        simp [hc0, heq]
        omega
      · have hspec := ih p.score (g + e) 1 hrest_pair hrest_le r hr2
        rw [hspec]
        have hrsc : r.score ≤ p.score := by
          rcases List.mem_map.mp (rankPass_score_mem hr2) with ⟨x, hx, hxs⟩
          rw [← hxs]
          exact hrest_le x hx
        have hrne : r.score ≠ prev := by
          intro hc
          rw [hc] at hrsc
          omega
        rw [if_neg hrne]
        by_cases hreq : r.score = p.score
        · rw [if_pos hreq]
          have hnlt : ¬(r.score < p.score) := by rw [hreq]; exact lt_irrefl _
          simp [List.countP_cons, hnlt]
          omega
        · rw [if_neg hreq]
          have hlt2 : r.score < p.score := lt_of_le_of_ne hrsc hreq
          simp [List.countP_cons, hlt2]
          omega

theorem countP_score_transfer (m : List PResult) (s : Nat) :
    m.countP (fun x => decide (s < x.score))
      = (m.map PResult.score).countP (fun n => decide (s < n)) := by
  rw [List.countP_map]
  rfl

/-- C3: the game-end results are the players' result records sorted by
score descending (pairwise non-increasing scores; a permutation of the
per-player projections), and the single ranking pass assigns standard
competition ranks: every entry's rank is one plus the number of entries
with a strictly greater score, which makes tied scores share a rank and
the next distinct score resume at the previous rank plus the count of tied
players; in particular scores [30, 30, 10, 0] receive ranks [1, 1, 3, 4]
and scores [10, 10, 10] receive ranks [1, 1, 1]. -/
theorem endGame_ranking_correct (players : List Player) :
    List.Pairwise (fun a b : Nat => b ≤ a) ((gameResults players).map PResult.score) ∧
    List.Perm ((gameResults players).map stripRank)
      ((players.map mkResult).map stripRank) ∧
    (∀ r ∈ gameResults players,
      r.rank = 1 + (gameResults players).countP (fun x => decide (r.score < x.score))) ∧
    ((gameResults demoPlayersA).map (fun r => r.rank) = [1, 1, 3, 4] ∧
     (gameResults demoPlayersB).map (fun r => r.rank) = [1, 1, 1]) := by
  have hsorted : List.Pairwise (fun a b => b.score ≤ a.score)
      (List.insertionSort scoreGe (players.map mkResult)) :=
    List.sorted_insertionSort scoreGe (players.map mkResult)
  refine ⟨?_, ?_, ?_, by decide, by decide⟩
  · unfold gameResults
    rw [rankPass_map_score]
    exact (List.pairwise_map).mpr hsorted
  · unfold gameResults
    rw [rankPass_map_strip]
    exact (List.perm_insertionSort scoreGe (players.map mkResult)).map stripRank
  · intro r hr
    unfold gameResults at hr ⊢
    rw [countP_score_transfer, rankPass_map_score, ← countP_score_transfer]
    cases hs : List.insertionSort scoreGe (players.map mkResult) with
    | nil =>
      rw [hs] at hr
      simp [rankPass] at hr
    | cons p rest =>
      rw [hs] at hr hsorted
      have hrest_le : ∀ x ∈ rest, x.score ≤ p.score := (List.pairwise_cons.mp hsorted).1
      have hrest_pair := (List.pairwise_cons.mp hsorted).2
      have hlt : ¬((p.score : Int) < (-1 : Int)) := by omega
      have hne : ¬((p.score : Int) = (-1 : Int)) := by omega
      rw [show rankPass (p :: rest) 1 (-1) 0
          = { p with rank := 1 } :: rankPass rest 1 (p.score : Int) 1
          from by simp [rankPass, hlt, hne]] at hr
      rcases List.mem_cons.mp hr with rfl | hr2
      · have hc0 := countP_gt_eq_zero hrest_le
        simp [hc0]
      · have hspec := rankPass_rank_spec rest p.score 0 1 hrest_pair hrest_le r hr2
        rw [hspec]
        have hrsc : r.score ≤ p.score := by
          rcases List.mem_map.mp (rankPass_score_mem hr2) with ⟨x, hx, hxs⟩
          rw [← hxs]
          exact hrest_le x hx
        by_cases hreq : r.score = p.score
        · rw [if_pos hreq]
          have hnlt : ¬(r.score < p.score) := by rw [hreq]; exact lt_irrefl _
          simp [List.countP_cons, hnlt]
        · rw [if_neg hreq]
          have hlt2 : r.score < p.score := lt_of_le_of_ne hrsc hreq
          simp [List.countP_cons, hlt2]
          omega

/-- Witness for endGame_ranking_correct: the competition-rank
characterization instantiated at the top entry of the [30, 30, 10, 0]
demo results. -/
theorem endGame_ranking_correct_witness :
    demoTopResult.rank = 1 + (gameResults demoPlayersA).countP
      (fun x => decide (demoTopResult.score < x.score)) :=
  (endGame_ranking_correct demoPlayersA).2.2.1 demoTopResult (by decide)

end SocketQuiz
